import Mathlib

/-!
# Pillar Dodge: a shallow embedding of `src/engine.cpp`

The game engine keeps one session state (the globals `screen`, `score`, `moveSpeed`
and the members of `Engine`) and changes it in three methods: `initShapes`,
`processInput` and `update`.  Each of them is embedded below as a pure function on
an explicit `Engine` record.

Conventions of the embedding.

* Coordinates (`float`/`double` in the source) are exact rationals.  Every constant of
  the source except `width/1.5` is exactly representable in binary floating point; that
  one is taken as the exact quotient `1600/3`.
* `width` and `height` are `unsigned int`, so `width/3` and `2*width/3` are integer
  divisions; they are kept as divisions on `Nat`.
* `score` is a C++ `int`: an `Int` on which `score++` wraps around at 32 bits in two's
  complement (`wrap32`), as it does on the usual targets; `2147483647 + 1` gives
  `-2147483648`.
* What one `processInput` call reads from the window library is gathered in `Input`:
  the state of the `R` key, the cursor position, the left mouse button, and the values
  the successive calls of `rand()` return during that call.
* The classes `color`, `Shape`, `Rect`, `Triangle` and `Cloud` live in headers which
  are not part of the sources at hand; the few members the engine uses are modelled
  from the specification and marked as such.
* Rendering, shader set-up, the escape key and the frame clock (`deltaTime`,
  `lastFrame`) do not influence any value modelled here and are left out.
-/

namespace PillarDodge

/-! ## Data model -/

/-- The three screens: `enum state {start, play, over}`. -/
inductive state where
  | start
  | play
  | over
  deriving DecidableEq, Repr

/-- Modelled from the spec: the `color` struct (header not in the sources): red, green,
blue and alpha components. -/
structure color where
  red : ℚ
  green : ℚ
  blue : ℚ
  alpha : ℚ
  deriving DecidableEq, Repr

/-- Modelled from the spec: `vec2`, a pair of coordinates (from the glm library). -/
structure vec2 where
  x : ℚ
  y : ℚ
  deriving DecidableEq, Repr

/-- Modelled from the spec: the `Rect` shape (header `shapes/rect.h` is not in the
sources), the AxisAlignedBox of the specification: centre position, size, fill colour. -/
structure Rect where
  pos : vec2
  size : vec2
  fill : color
  deriving DecidableEq, Repr

/-- Modelled from the spec: the `Triangle` shape (header not in the sources); only
construction is used by the engine logic. -/
structure Triangle where
  pos : vec2
  size : vec2
  fill : color
  deriving DecidableEq, Repr

/-- Modelled from the spec: the `Cloud` decoration (header not in the sources), built
from a position. -/
structure Cloud where
  pos : vec2
  deriving DecidableEq, Repr

namespace Rect

/-- Modelled from the spec: `Shape::getPosX`, the x coordinate of the centre. -/
def getPosX (r : Rect) : ℚ := r.pos.x

/-- Modelled from the spec: `Shape::getSize`. -/
def getSize (r : Rect) : vec2 := r.size

/-- Modelled from the spec: `Shape::setPosX`, the centre-position setter (edges are
derived from centre and size, so they follow). -/
def setPosX (r : Rect) (x : ℚ) : Rect := { r with pos := { r.pos with x := x } }

/-- Modelled from the spec: `Shape::setPosY`, the centre-position setter. -/
def setPosY (r : Rect) (y : ℚ) : Rect := { r with pos := { r.pos with y := y } }

/-- Modelled from the spec: `Shape::moveX`, which adds to the x coordinate of the centre. -/
def moveX (r : Rect) (deltaX : ℚ) : Rect := r.setPosX (r.pos.x + deltaX)

/-- Modelled from the spec: `Shape::setColor`. -/
def setColor (r : Rect) (c : color) : Rect := { r with fill := c }

/-- Modelled from the spec: `Rect::getLeft`, centre minus half the width. -/
def getLeft (r : Rect) : ℚ := r.pos.x - r.size.x / 2

/-- Modelled from the spec: `Rect::getRight`, centre plus half the width. -/
def getRight (r : Rect) : ℚ := r.pos.x + r.size.x / 2

/-- Modelled from the spec: `Rect::getTop`, centre plus half the height. -/
def getTop (r : Rect) : ℚ := r.pos.y + r.size.y / 2

/-- Modelled from the spec: `Rect::getBottom`, centre minus half the height. -/
def getBottom (r : Rect) : ℚ := r.pos.y - r.size.y / 2

/-- Modelled from the spec: `Rect::isOverlapping`, the strict axis-aligned box test
`a.left < b.right && a.right > b.left && a.bottom < b.top && a.top > b.bottom`. -/
def isOverlapping (a b : Rect) : Bool :=
  decide (a.getLeft < b.getRight) && decide (a.getRight > b.getLeft) &&
    decide (a.getBottom < b.getTop) && decide (a.getTop > b.getBottom)

end Rect

/-! ## Constants of `engine.cpp` and `engine.h` -/

/-- Window width: `const unsigned int width = 800`. -/
def width : Nat := 800

/-- Window height: `const unsigned int height = 600`. -/
def height : Nat := 600

/-- Colour constant: `const color white(1, 1, 1)`. -/
def white : color := ⟨1, 1, 1, 1⟩

/-- Colour constant: `const color grassGreen(26/255.0, 176/255.0, 56/255.0)`. -/
def grassGreen : color := ⟨26 / 255, 176 / 255, 56 / 255, 1⟩

/-- Colour constant: `const color darkGreen(27/255.0, 81/255.0, 45/255.0)`. -/
def darkGreen : color := ⟨27 / 255, 81 / 255, 45 / 255, 1⟩

/-- Colour constant: `const color brickRed(201/255.0, 20/255.0, 20/255.0)`. -/
def brickRed : color := ⟨201 / 255, 20 / 255, 20 / 255, 1⟩

/-- Colour constant: `const color gray (125/255.0, 128/255.0, 133/255.0)`. -/
def gray : color := ⟨125 / 255, 128 / 255, 133 / 255, 1⟩

/-- Button colour: `const color originalFill = {1, 0, 0, 1}`. -/
def originalFill : color := ⟨1, 0, 0, 1⟩

/-- Button colour: `const color hoverFill{0.75, 0, 0, 1}`. -/
def hoverFill : color := ⟨3 / 4, 0, 0, 1⟩

/-- Button colour: `const color pressFill{0.5, 0, 0, 1}`. -/
def pressFill : color := ⟨1 / 2, 0, 0, 1⟩

/-! ## Session state and input -/

/-- The session: the globals `screen`, `score`, `moveSpeed` and the members of `Engine`
which the game logic reads or writes. -/
structure Engine where
  screen : state
  score : Int
  moveSpeed : ℚ
  easyButton : Rect
  mediumButton : Rect
  hardButton : Rect
  grass : Rect
  buildings1 : List Rect
  buildings2 : List Rect
  user : Rect
  mountains : List Triangle
  clouds : List Cloud
  MouseX : ℚ
  MouseY : ℚ
  mousePressedLastFrame : Bool

/-- What one `processInput` call obtains from outside: `keys[GLFW_KEY_R]` after polling,
the cursor position of `glfwGetCursorPos`, whether `glfwGetMouseButton` reports the left
button as pressed (the three reads of one call see the same polled value), and the
values returned by the successive `rand()` calls made during the call. -/
structure Input where
  keyR : Bool
  cursorX : ℚ
  cursorY : ℚ
  mouseLeft : Bool
  rand : Nat → Nat

/-! ## `Engine::initShapes` -/

/-- The near (ground) obstacle pushed in one round of the level loop, for the value `r`
returned by `rand()`: `buildingSize.y = rand() % 500 + 40`, `buildingSize.x = 25`, centre
`(totalBuildingWidth + buildingSize.x / 2.0 + 800, buildingSize.y / 2.0)`. -/
def nearPillar (r : Nat) (totalBuildingWidth : Nat) : Rect :=
  let sizeY : ℚ := ((r % 500 + 40 : Nat) : ℚ)
  let sizeX : ℚ := 25
  ⟨⟨(totalBuildingWidth : ℚ) + sizeX / 2 + 800, sizeY / 2⟩, ⟨sizeX, sizeY⟩, brickRed⟩

/-- The far (ceiling) obstacle of the same round: `oldBuildSize = buildingSize.y`, then
`buildingSize.y += 600`, centre
`(totalBuildingWidth + buildingSize.x / 2.0 + 800, buildingSize.y / 2.0 + (oldBuildSize + 40))`. -/
def farPillar (r : Nat) (totalBuildingWidth : Nat) : Rect :=
  let sizeY : ℚ := ((r % 500 + 40 : Nat) : ℚ)
  let sizeX : ℚ := 25
  let oldBuildSize : Nat := r % 500 + 40
  let sizeY2 : ℚ := sizeY + 600
  ⟨⟨(totalBuildingWidth : ℚ) + sizeX / 2 + 800, sizeY2 / 2 + ((oldBuildSize : ℚ) + 40)⟩,
    ⟨sizeX, sizeY2⟩, brickRed⟩

/-- The `while (totalBuildingWidth < width + 50)` loop of `initShapes`, by recursion on a
bound `n` for the number of rounds still to come.  `k` counts the `rand()` calls made so
far; each round pushes one near obstacle onto `buildings1` and one far obstacle onto
`buildings2`, then `totalBuildingWidth += buildingSize.x + 300`. -/
def buildRounds (rand : Nat → Nat) : Nat → Nat → Nat → List Rect → List Rect → List Rect × List Rect
  | 0, _, _, buildings1, buildings2 => (buildings1, buildings2)
  | n + 1, k, totalBuildingWidth, buildings1, buildings2 =>
    if totalBuildingWidth < width + 50 then
      buildRounds rand n (k + 1) (totalBuildingWidth + (25 + 300))
        (buildings1 ++ [nearPillar (rand k) totalBuildingWidth])
        (buildings2 ++ [farPillar (rand k) totalBuildingWidth])
    else (buildings1, buildings2)

/-- The level loop.  The bound handed to `buildRounds` is the loop variant
`(width + 50) - totalBuildingWidth`: it is positive while the loop condition holds and
drops in every round, so the rounds never run short (`buildLoop_unfold` below shows
that `buildLoop` satisfies the equation of the `while` loop for every start value). -/
def buildLoop (rand : Nat → Nat) (k : Nat) (totalBuildingWidth : Nat)
    (buildings1 buildings2 : List Rect) : List Rect × List Rect :=
  buildRounds rand ((width + 50) - totalBuildingWidth) k totalBuildingWidth buildings1 buildings2

/-- The method `Engine::initShapes`: the player, the buttons and the grass are made
anew, two mountains and three clouds are pushed onto their vectors, and the level loop
pushes obstacle pairs onto the two lanes. -/
def initShapes (s : Engine) (rand : Nat → Nat) : Engine :=
  let lanes := buildLoop rand 0 0 s.buildings1 s.buildings2
  { s with
    user := ⟨⟨0, 0⟩, ⟨10, 10⟩, white⟩
    easyButton := ⟨⟨((width / 3 : Nat) : ℚ), ((height / 2 : Nat) : ℚ)⟩, ⟨100, 50⟩, ⟨1, 0, 0, 1⟩⟩
    mediumButton :=
      ⟨⟨((width / 2 : Nat) : ℚ), ((height / 2 : Nat) : ℚ)⟩, ⟨100, 50⟩, ⟨1, 0, 0, 1⟩⟩
    hardButton := ⟨⟨(width : ℚ) / (3 / 2), ((height / 2 : Nat) : ℚ)⟩, ⟨100, 50⟩, ⟨1, 0, 0, 1⟩⟩
    grass := ⟨⟨((width / 2 : Nat) : ℚ), 50⟩, ⟨(width : ℚ), ((height / 3 : Nat) : ℚ)⟩, grassGreen⟩
    mountains := s.mountains ++
      [⟨⟨((width / 4 : Nat) : ℚ), 300⟩, ⟨(width : ℚ), 400⟩, darkGreen⟩,
       ⟨⟨((2 * width / 3 : Nat) : ℚ), 300⟩, ⟨(width : ℚ), 500⟩, darkGreen⟩]
    clouds := s.clouds ++ [⟨⟨200, 500⟩⟩, ⟨⟨400, 520⟩⟩, ⟨⟨325, 480⟩⟩]
    buildings1 := lanes.1
    buildings2 := lanes.2 }

/-- The session before the constructor body runs: zero-initialised globals (`screen` is
`start`, `score` and `moveSpeed` are 0), empty vectors, `mousePressedLastFrame = false`.
The shapes behind the still-null pointers are placeholders; `initShapes` replaces them. -/
def blank : Engine :=
  { screen := state.start
    score := 0
    moveSpeed := 0
    easyButton := ⟨⟨0, 0⟩, ⟨0, 0⟩, white⟩
    mediumButton := ⟨⟨0, 0⟩, ⟨0, 0⟩, white⟩
    hardButton := ⟨⟨0, 0⟩, ⟨0, 0⟩, white⟩
    grass := ⟨⟨0, 0⟩, ⟨0, 0⟩, white⟩
    buildings1 := []
    buildings2 := []
    user := ⟨⟨0, 0⟩, ⟨0, 0⟩, white⟩
    mountains := []
    clouds := []
    MouseX := 0
    MouseY := 0
    mousePressedLastFrame := false }

/-- The constructor `Engine::Engine()`, as far as the game logic goes: `initShapes` on
the blank session. -/
def construct (rand : Nat → Nat) : Engine := initShapes blank rand

/-! ## `Engine::processInput`

The body is split into stages in source order; `processInput` is their composition. -/

/-- Stage `glfwGetCursorPos(window, &MouseX, &MouseY)`. -/
def pollCursor (s : Engine) (i : Input) : Engine :=
  { s with MouseX := i.cursorX, MouseY := i.cursorY }

/-- The statements `score = 0; buildings1.clear(); buildings2.clear();` of the reset. -/
def clearLanes (s : Engine) : Engine :=
  { s with score := 0, buildings1 := [], buildings2 := [] }

/-- Stage `if (keys[GLFW_KEY_R] && screen == over)`: the score is zeroed, both lanes are
cleared, `initShapes` runs and the screen becomes `start`. -/
def resetStage (s : Engine) (i : Input) : Engine :=
  if i.keyR && s.screen == state.over then
    { initShapes (clearLanes s) i.rand with screen := state.start }
  else s

/-- Stage `MouseY = height - MouseY; user->setPosX(MouseX); user->setPosY(MouseY)`. -/
def moveUser (s : Engine) : Engine :=
  let mouseY : ℚ := (height : ℚ) - s.MouseY
  { s with MouseY := mouseY, user := (s.user.setPosX s.MouseX).setPosY mouseY }

/-- The colour a button gets from the `if / else if / else` chain on `mousePressed` and
`buttonOverlapsMouse`. -/
def buttonFill (mousePressed buttonOverlapsMouse : Bool) : color :=
  if mousePressed && buttonOverlapsMouse then pressFill
  else if buttonOverlapsMouse then hoverFill
  else originalFill

/-- The selection condition
`mousePressedLastFrame && !mousePressed && buttonOverlapsMouse && screen == start`. -/
def selectionFires (s : Engine) (mousePressed buttonOverlapsMouse : Bool) : Bool :=
  s.mousePressedLastFrame && !mousePressed && buttonOverlapsMouse && s.screen == state.start

/-- Stage of the easy button: recolour it, and select speed 2.0 if the condition holds. -/
def easyStage (s : Engine) (i : Input) : Engine :=
  let buttonOverlapsMouse := s.easyButton.isOverlapping s.user
  let mousePressed := i.mouseLeft
  let s1 := { s with easyButton := s.easyButton.setColor (buttonFill mousePressed buttonOverlapsMouse) }
  if selectionFires s1 mousePressed buttonOverlapsMouse then
    { s1 with moveSpeed := 2, screen := state.play }
  else s1

/-- Stage of the medium button: recolour it, and select speed 5.0 if the condition holds. -/
def mediumStage (s : Engine) (i : Input) : Engine :=
  let buttonOverlapsMouse := s.mediumButton.isOverlapping s.user
  let mousePressed := i.mouseLeft
  let s1 :=
    { s with mediumButton := s.mediumButton.setColor (buttonFill mousePressed buttonOverlapsMouse) }
  if selectionFires s1 mousePressed buttonOverlapsMouse then
    { s1 with moveSpeed := 5, screen := state.play }
  else s1

/-- Stage of the hard button: recolour it, and select speed 10.0 if the condition holds. -/
def hardStage (s : Engine) (i : Input) : Engine :=
  let buttonOverlapsMouse := s.hardButton.isOverlapping s.user
  let mousePressed := i.mouseLeft
  let s1 := { s with hardButton := s.hardButton.setColor (buttonFill mousePressed buttonOverlapsMouse) }
  if selectionFires s1 mousePressed buttonOverlapsMouse then
    { s1 with moveSpeed := 10, screen := state.play }
  else s1

/-- Stage `mousePressedLastFrame = mousePressed`. -/
def saveMouse (s : Engine) (i : Input) : Engine :=
  { s with mousePressedLastFrame := i.mouseLeft }

/-- Stage "Make sure the user cannot exceed the screen": the four `if`s in source order,
each calling the centre setter with the bound it tested the edge against. -/
def clampUser (s : Engine) : Engine :=
  let u0 := s.user
  let u1 := if u0.getTop ≥ (height : ℚ) then u0.setPosY (height : ℚ) else u0
  let u2 := if u1.getBottom ≤ 0 then u1.setPosY 0 else u1
  let u3 := if u2.getLeft ≤ 0 then u2.setPosX 0 else u2
  let u4 := if u3.getRight ≥ (width : ℚ) then u3.setPosX (width : ℚ) else u3
  { s with user := u4 }

/-- One `for (const unique_ptr<Rect>& r : lane)` loop of the crash check: an obstacle
overlapping the player sets the screen to `over`, any other obstacle is painted gray. -/
def crashLane (user : Rect) : List Rect → state → List Rect × state
  | [], scr => ([], scr)
  | r :: rs, scr =>
    if r.isOverlapping user then
      let rest := crashLane user rs state.over
      (r :: rest.1, rest.2)
    else
      let rest := crashLane user rs scr
      (r.setColor gray :: rest.1, rest.2)

/-- Stage "End the game if they crash a pillar": in `play`, the near lane is checked,
then the far lane. -/
def crashStage (s : Engine) : Engine :=
  if s.screen = state.play then
    let near := crashLane s.user s.buildings1 s.screen
    let far := crashLane s.user s.buildings2 near.2
    { s with buildings1 := near.1, buildings2 := far.1, screen := far.2 }
  else s

/-- The stages from moving the player to saving the mouse flag: the player, the three
buttons in source order (easy, medium, hard), `mousePressedLastFrame`. -/
def buttonStages (s : Engine) (i : Input) : Engine :=
  saveMouse (hardStage (mediumStage (easyStage (moveUser s) i) i) i) i

/-- The method `Engine::processInput`: poll the cursor, reset if asked for, move the
player and handle the buttons, clamp the player, check for a crash. -/
def processInput (s : Engine) (i : Input) : Engine :=
  crashStage (clampUser (buttonStages (resetStage (pollCursor s i) i) i))

/-! ## `Engine::update` -/

/-- The value a 32-bit `int` holds when the exact result is `n`: two's complement
wrap-around. -/
def wrap32 (n : Int) : Int := (n + 2147483648) % 4294967296 - 2147483648

/-- Body of the near-lane loop at index `i`: move obstacle `i` left by `moveSpeed`; if its
centre is then left of minus half its width, count a point (`score++` on the 32-bit
counter) and put it to the right of `buildingOnLeft` (the last index if `i` is 0, else
`i - 1`). -/
def nearStep (moveSpeed : ℚ) (acc : List Rect × Int) (i : Nat) : List Rect × Int :=
  match acc.1[i]? with
  | none => acc
  | some b =>
    let moved := b.moveX (-moveSpeed)
    let lane := acc.1.set i moved
    if moved.getPosX < -(moved.getSize.x / 2) then
      let buildingOnLeft := if i = 0 then lane.length - 1 else i - 1
      match lane[buildingOnLeft]? with
      | none => (lane, wrap32 (acc.2 + 1))
      | some l =>
        (lane.set i (moved.setPosX (l.getPosX + l.getSize.x / 2 + moved.getSize.x / 2 + 300)),
          wrap32 (acc.2 + 1))
    else (lane, acc.2)

/-- Body of the far-lane loop at index `i`: as the near lane, without the score. -/
def farStep (moveSpeed : ℚ) (lane0 : List Rect) (i : Nat) : List Rect :=
  match lane0[i]? with
  | none => lane0
  | some b =>
    let moved := b.moveX (-moveSpeed)
    let lane := lane0.set i moved
    if moved.getPosX < -(moved.getSize.x / 2) then
      let buildingOnLeft := if i = 0 then lane.length - 1 else i - 1
      match lane[buildingOnLeft]? with
      | none => lane
      | some l =>
        lane.set i (moved.setPosX (l.getPosX + l.getSize.x / 2 + moved.getSize.x / 2 + 300))
    else lane

/-- The loop `for (int i = 0; i < buildings1.size(); ++i)` over the near lane. -/
def nearLoop (moveSpeed : ℚ) (lane : List Rect) (score : Int) : List Rect × Int :=
  (List.range lane.length).foldl (nearStep moveSpeed) (lane, score)

/-- The loop `for (int i = 0; i < buildings2.size(); ++i)` over the far lane. -/
def farLoop (moveSpeed : ℚ) (lane : List Rect) : List Rect :=
  (List.range lane.length).foldl (farStep moveSpeed) lane

/-- The method `Engine::update`.  `Cloud::moveXWithinBounds` is not in the sources; it is
the parameter `moveXWithinBounds` (cloud, delta, bound). -/
def update (moveXWithinBounds : Cloud → ℚ → ℚ → Cloud) (s : Engine) : Engine :=
  if s.screen = state.play then
    let near := nearLoop s.moveSpeed s.buildings1 s.score
    { s with
      clouds := s.clouds.map (fun c => moveXWithinBounds c (-1) (width : ℚ))
      buildings1 := near.1
      score := near.2
      buildings2 := farLoop s.moveSpeed s.buildings2 }
  else s

/-! ## Sessions and auxiliary notions used in the statements -/

/-- The sessions a run of the program can be in: the constructor's result, and whatever
`processInput` (on any input) and `update` (for any cloud movement) make of a
reachable session. -/
inductive Reachable : Engine → Prop
  | construct (rand : Nat → Nat) : Reachable (construct rand)
  | processInput {s : Engine} (i : Input) : Reachable s → Reachable (processInput s i)
  | update {s : Engine} (moveXWithinBounds : Cloud → ℚ → ℚ → Cloud) :
      Reachable s → Reachable (update moveXWithinBounds s)

/-- Sessions reached from a level build (`initShapes` on empty lanes) by `update` calls,
the value of `moveSpeed` being arbitrary at each call. -/
inductive LevelReach : Engine → Prop
  | build (s : Engine) (rand : Nat → Nat) :
      s.buildings1 = [] → s.buildings2 = [] → LevelReach (initShapes s rand)
  | update {s : Engine} (moveXWithinBounds : Cloud → ℚ → ℚ → Cloud) (v : ℚ) :
      LevelReach s → LevelReach (update moveXWithinBounds { s with moveSpeed := v })

/-- The player box as `processInput` places it before the buttons are looked at: centre
at the pointer, `(cursorX, height - cursorY)`. -/
def playerAt (s : Engine) (i : Input) : Rect :=
  (s.user.setPosX i.cursorX).setPosY ((height : ℚ) - i.cursorY)

/-- Whether the selection of the easy stage fires in the call `processInput s i`. -/
def easyFires (s : Engine) (i : Input) : Bool :=
  let a := moveUser (resetStage (pollCursor s i) i)
  selectionFires a i.mouseLeft (a.easyButton.isOverlapping a.user)

/-- Whether the selection of the medium stage fires in the call `processInput s i`. -/
def mediumFires (s : Engine) (i : Input) : Bool :=
  let a := easyStage (moveUser (resetStage (pollCursor s i) i)) i
  selectionFires a i.mouseLeft (a.mediumButton.isOverlapping a.user)

/-- Whether the selection of the hard stage fires in the call `processInput s i`. -/
def hardFires (s : Engine) (i : Input) : Bool :=
  let a := mediumStage (easyStage (moveUser (resetStage (pollCursor s i) i)) i) i
  selectionFires a i.mouseLeft (a.hardButton.isOverlapping a.user)

/-- The hover test of the button stages on a session whose cursor has been polled: the
player, moved to the pointer, overlaps the easy, the medium or the hard button. -/
def hovered (r : Engine) : Bool :=
  r.easyButton.isOverlapping (moveUser r).user || r.mediumButton.isOverlapping (moveUser r).user ||
    r.hardButton.isOverlapping (moveUser r).user

/-- The shape every reachable session has: a 10x10 player, the three 100x50 buttons at
their places, and on the start screen a level whose obstacles all lie to the right of
the window (left edge at 800 or more). -/
def WellFormed (s : Engine) : Prop :=
  s.user.size = ⟨10, 10⟩ ∧
  (s.easyButton.pos = ⟨266, 300⟩ ∧ s.easyButton.size = ⟨100, 50⟩) ∧
  (s.mediumButton.pos = ⟨400, 300⟩ ∧ s.mediumButton.size = ⟨100, 50⟩) ∧
  (s.hardButton.pos = ⟨1600 / 3, 300⟩ ∧ s.hardButton.size = ⟨100, 50⟩) ∧
  (s.screen = state.start →
    ∀ b : Rect, b ∈ s.buildings1 ∨ b ∈ s.buildings2 → (800 : ℚ) ≤ b.getLeft)

/-- The pairing of a near obstacle with the far obstacle of the same index: same centre
x, same width, far height 600 more than near height. -/
def Paired (n f : Rect) : Prop :=
  n.pos.x = f.pos.x ∧ n.size.x = f.size.x ∧ f.size.y = n.size.y + 600

/-- Obstacle `b` is obstacle `a` up to its x position: same y, same size, same colour. -/
def SameButX (a b : Rect) : Prop :=
  b.pos.y = a.pos.y ∧ b.size = a.size ∧ b.fill = a.fill

/-- Specification, first phase: move every obstacle of the lane left by `moveSpeed`. -/
def specMoveAll (moveSpeed : ℚ) (lane : List Rect) : List Rect :=
  lane.map (fun b => b.moveX (-moveSpeed))

/-- Specification, second phase at index `i`: an obstacle with `position.x < -size.x/2`
gets the x of the obstacle at the previous index (the last index for index 0) plus half
the neighbour's width plus half its own width plus 300. -/
def specRecycleAt (lane : List Rect) (i : Nat) : List Rect :=
  match lane[i]? with
  | none => lane
  | some b =>
    if b.pos.x < -(b.size.x / 2) then
      match lane[if i = 0 then lane.length - 1 else i - 1]? with
      | none => lane
      | some l => lane.set i (b.setPosX (l.pos.x + l.size.x / 2 + b.size.x / 2 + 300))
    else lane

/-- Specification: the two phases, one after the other. -/
def specTwoPhase (moveSpeed : ℚ) (lane : List Rect) : List Rect :=
  (List.range lane.length).foldl specRecycleAt (specMoveAll moveSpeed lane)

/-- The gap between the left edge of obstacle `i` and the right edge of its array-left
neighbour (the last obstacle for index 0); `none` outside the lane. -/
def gapToLeftNeighbour (lane : List Rect) (i : Nat) : Option ℚ :=
  match lane[i]?, lane[if i = 0 then lane.length - 1 else i - 1]? with
  | some b, some l => some (b.getLeft - l.getRight)
  | _, _ => none

/-! ### Concrete sessions and inputs used to instantiate the theorems -/

/-- A random source that always returns 7 (all near obstacles get height 47). -/
def sevens : Nat → Nat := fun _ => 7

/-- The session right after construction, with the random source `sevens`. -/
def freshSession : Engine := construct sevens

/-- Input: the pointer rests on the easy button, left button held down. -/
def pressEasy : Input := ⟨false, 266, 300, true, sevens⟩

/-- Input: the pointer rests on the easy button, left button up. -/
def releaseEasy : Input := ⟨false, 266, 300, false, sevens⟩

/-- Input: the pointer is at the right border near the ground, left button held down. -/
def pressAtPillar : Input := ⟨false, 800, 590, true, sevens⟩

/-- Input: the `R` key is down while the left button is released over the easy button. -/
def resetAndReleaseEasy : Input := ⟨true, 266, 300, false, sevens⟩

/-- Input: the `R` key is down, the pointer is in the top left corner, button up. -/
def resetOnly : Input := ⟨true, 0, 0, false, sevens⟩

/-- The fresh session put on the play screen. -/
def playingSession : Engine := { freshSession with screen := state.play }

/-- A release-click over a button: the left button was down on the previous frame, is up
on this one, and the player box placed at the pointer overlaps the easy, the medium or the
hard button. -/
def releaseClick (s : Engine) (i : Input) : Prop :=
  s.mousePressedLastFrame = true ∧ i.mouseLeft = false ∧
    (s.easyButton.isOverlapping (playerAt s i) = true ∨
      s.mediumButton.isOverlapping (playerAt s i) = true ∨
      s.hardButton.isOverlapping (playerAt s i) = true)

/-- The session after the mouse button went down over the easy button of the fresh
session. -/
def pressedSession : Engine := processInput freshSession pressEasy

/-- Input: the pointer is inside the window, 3 units from its top and right borders. -/
def pointerTopRight : Input := ⟨false, 797, 3, false, sevens⟩

/-- Input: the pointer is inside the window, 2 units from its bottom and left borders. -/
def pointerBottomLeft : Input := ⟨false, 2, 598, false, sevens⟩

/-- The session after the release-click on the easy button: the game is being played. -/
def easySession : Engine := processInput pressedSession releaseEasy

/-- The session after the player ran into the first pillar with the button held down: the
game is over. -/
def crashedSession : Engine := processInput easySession pressAtPillar

/-- A sample cloud movement to instantiate `update` with: the cloud drifts by the given
amount, without wrapping. -/
def driftCloud : Cloud → ℚ → ℚ → Cloud := fun c deltaX _ => ⟨⟨c.pos.x + deltaX, c.pos.y⟩⟩

/-- The near lane of the `sevens` level after 412 updates at speed 2: the first obstacle
has its centre at -11.5, one update away from passing the left border. -/
def lateNear : List Rect :=
  [⟨⟨-23 / 2, 47 / 2⟩, ⟨25, 47⟩, gray⟩, ⟨⟨627 / 2, 47 / 2⟩, ⟨25, 47⟩, gray⟩,
   ⟨⟨1277 / 2, 47 / 2⟩, ⟨25, 47⟩, gray⟩]

/-- The far lane of the `sevens` level after 412 updates at speed 2. -/
def lateFar : List Rect :=
  [⟨⟨-23 / 2, 821 / 2⟩, ⟨25, 647⟩, gray⟩, ⟨⟨627 / 2, 821 / 2⟩, ⟨25, 647⟩, gray⟩,
   ⟨⟨1277 / 2, 821 / 2⟩, ⟨25, 647⟩, gray⟩]

/-- The session 412 `update` calls after the release-click on the easy button. -/
def lateSession : Engine := (update driftCloud)^[412] easySession

/-- Input: the `R` key is down while the left button is released over the medium button. -/
def resetAndReleaseMedium : Input := ⟨true, 400, 300, false, sevens⟩

/-- Input: the `R` key is down, the pointer rests on the easy button, left button held
down. -/
def resetHeld : Input := ⟨true, 266, 300, true, sevens⟩

/-- Whether the player box of a freshly initialised session, placed at the pointer,
overlaps one of the three buttons as `initShapes` makes them (neither depends on the
random values). -/
def overFreshButton (i : Input) : Bool :=
  (construct i.rand).easyButton.isOverlapping (playerAt (construct i.rand) i) ||
    (construct i.rand).mediumButton.isOverlapping (playerAt (construct i.rand) i) ||
    (construct i.rand).hardButton.isOverlapping (playerAt (construct i.rand) i)

/-- The speed of the first button, in the order easy, medium, hard, that the player box
of a freshly initialised session overlaps when placed at the pointer. -/
def freshSpeed (i : Input) : ℚ :=
  if (construct i.rand).easyButton.isOverlapping (playerAt (construct i.rand) i) = true then 2
  else if (construct i.rand).mediumButton.isOverlapping (playerAt (construct i.rand) i) = true
    then 5
  else 10

/-- A release-click over a button as seen by a call in which the reset fires: the left
button was down on the previous frame, is up on this one, and the pointer is over one of
the freshly made buttons. -/
def freshClick (s : Engine) (i : Input) : Prop :=
  s.mousePressedLastFrame = true ∧ i.mouseLeft = false ∧ overFreshButton i = true

/-- The session one `update` after `lateSession`: the first obstacle has been recycled and
the score is 1. -/
def scoredSession : Engine := update driftCloud lateSession

/-- Input: the pointer is on the second pillar near the ground, left button up. -/
def pointerAtSecondPillar : Input := ⟨false, 311, 590, false, sevens⟩

/-- The session after the player ran into the second pillar of `scoredSession`: the game
is over with score 1 and lanes that have moved. -/
def lostSession : Engine := processInput scoredSession pointerAtSecondPillar

/-- Input: the `R` key is down, the pointer is in the top left corner, button up, and
`rand()` returns 60, 160, 260, ... (near heights 100, 200, 300). -/
def resetWithNewLevel : Input := ⟨true, 0, 0, false, fun k => 100 * k + 60⟩

/-! ## The level builder -/

/-- Past the loop condition the rounds do nothing, whatever the bound. -/
theorem buildRounds_done (rand : Nat → Nat) (n k t : Nat) (b1 b2 : List Rect)
    (h : ¬ t < width + 50) : buildRounds rand n k t b1 b2 = (b1, b2) := by
  cases n with
  | zero => rfl
  | succ n => simp [buildRounds, h]

/-- A bound of at least the loop variant is as good as any other such bound. -/
theorem buildRounds_bound (rand : Nat → Nat) (n m : Nat) :
    ∀ (k t : Nat) (b1 b2 : List Rect), (width + 50) - t ≤ n → (width + 50) - t ≤ m →
      buildRounds rand n k t b1 b2 = buildRounds rand m k t b1 b2 := by
  induction n generalizing m with
  | zero =>
    intro k t b1 b2 hn _
    rw [buildRounds_done rand 0 k t b1 b2 (by omega), buildRounds_done rand m k t b1 b2 (by omega)]
  | succ n ih =>
    intro k t b1 b2 hn hm
    by_cases ht : t < width + 50
    · cases m with
      | zero => omega
      | succ m =>
        simp only [buildRounds, ht, if_true]
        exact ih m _ _ _ _ (by omega) (by omega)
    · rw [buildRounds_done rand _ k t b1 b2 ht, buildRounds_done rand m k t b1 b2 ht]

/-- The level loop satisfies the equation of the `while` loop of the source, for every
value of `totalBuildingWidth`: the recursion never stops for lack of rounds. -/
theorem buildLoop_unfold (rand : Nat → Nat) (k t : Nat) (b1 b2 : List Rect) :
    buildLoop rand k t b1 b2 =
      if t < width + 50 then
        buildLoop rand (k + 1) (t + (25 + 300)) (b1 ++ [nearPillar (rand k) t])
          (b2 ++ [farPillar (rand k) t])
      else (b1, b2) := by
  unfold buildLoop
  by_cases ht : t < width + 50
  · rw [if_pos ht]
    obtain ⟨n, hn⟩ : ∃ n, (width + 50) - t = n + 1 := ⟨(width + 50) - t - 1, by omega⟩
    rw [hn, buildRounds, if_pos ht]
    exact buildRounds_bound rand _ _ _ _ _ _ (by omega) (by omega)
  · rw [if_neg ht]
    exact buildRounds_done rand _ k t b1 b2 ht

/-- The level loop started at 0 makes exactly three rounds, whatever `rand()` returns. -/
theorem buildLoop_zero (rand : Nat → Nat) (k : Nat) (b1 b2 : List Rect) :
    buildLoop rand k 0 b1 b2 =
      (b1 ++ [nearPillar (rand k) 0, nearPillar (rand (k + 1)) 325, nearPillar (rand (k + 2)) 650],
       b2 ++ [farPillar (rand k) 0, farPillar (rand (k + 1)) 325, farPillar (rand (k + 2)) 650]) := by
  rw [buildLoop_unfold, if_pos (by decide)]
  rw [buildLoop_unfold, if_pos (by decide)]
  rw [buildLoop_unfold, if_pos (by decide)]
  rw [buildLoop_unfold, if_neg (by decide)]
  simp

/-! ## The stages of `processInput` -/

/-- The button stages leave the player where `moveUser` put it. -/
theorem buttonStages_user (r : Engine) (i : Input) :
    (buttonStages r i).user = (moveUser r).user := by
  simp only [buttonStages, saveMouse, hardStage, mediumStage, easyStage, moveUser]
  split_ifs <;> rfl

/-- The button stages touch neither lanes, score nor decorations, and record the mouse. -/
theorem buttonStages_lanes (r : Engine) (i : Input) :
    (buttonStages r i).buildings1 = r.buildings1 ∧ (buttonStages r i).buildings2 = r.buildings2 ∧
    (buttonStages r i).score = r.score ∧ (buttonStages r i).mountains = r.mountains ∧
    (buttonStages r i).clouds = r.clouds ∧
    (buttonStages r i).mousePressedLastFrame = i.mouseLeft := by
  simp only [buttonStages, saveMouse, hardStage, mediumStage, easyStage, moveUser]
  split_ifs <;> simp

/-- The screen after the button stages. -/
theorem buttonStages_screen (r : Engine) (i : Input) :
    (buttonStages r i).screen =
      if r.screen = state.start ∧ r.mousePressedLastFrame = true ∧ i.mouseLeft = false ∧
          hovered r = true then state.play else r.screen := by
  simp only [buttonStages, saveMouse, hardStage, mediumStage, easyStage, moveUser,
    selectionFires, hovered]
  split_ifs <;> simp_all

/-- The speed after the button stages: that of the first hovered button when a selection
fires, the old one otherwise. -/
theorem buttonStages_moveSpeed (r : Engine) (i : Input) :
    (buttonStages r i).moveSpeed =
      if r.screen = state.start ∧ r.mousePressedLastFrame = true ∧ i.mouseLeft = false ∧
          hovered r = true then
        (if r.easyButton.isOverlapping (moveUser r).user then 2
         else if r.mediumButton.isOverlapping (moveUser r).user then 5 else 10)
      else r.moveSpeed := by
  simp only [buttonStages, saveMouse, hardStage, mediumStage, easyStage, moveUser,
    selectionFires, hovered]
  split_ifs <;> simp_all

/-- The button stages change the colour of the buttons only. -/
theorem buttonStages_buttons (r : Engine) (i : Input) :
    ((buttonStages r i).easyButton.pos = r.easyButton.pos ∧
      (buttonStages r i).easyButton.size = r.easyButton.size) ∧
    ((buttonStages r i).mediumButton.pos = r.mediumButton.pos ∧
      (buttonStages r i).mediumButton.size = r.mediumButton.size) ∧
    ((buttonStages r i).hardButton.pos = r.hardButton.pos ∧
      (buttonStages r i).hardButton.size = r.hardButton.size) := by
  simp only [buttonStages, saveMouse, hardStage, mediumStage, easyStage, moveUser]
  split_ifs <;> simp [Rect.setColor]

/-- The screen a crash loop leaves: `over` as soon as one obstacle overlaps the player. -/
theorem crashLane_snd (u : Rect) (bs : List Rect) (scr : state) :
    (crashLane u bs scr).2 =
      if bs.any (fun r => r.isOverlapping u) = true then state.over else scr := by
  induction bs generalizing scr with
  | nil => simp [crashLane]
  | cons r rs ih =>
    by_cases h : r.isOverlapping u = true
    · simp [crashLane, h, ih]
    · simp [crashLane, h, ih]

/-- The crash loop keeps the position and size of every obstacle. -/
theorem crashLane_fst (u : Rect) (bs : List Rect) (scr : state) :
    List.Forall₂ (fun a b : Rect => b.pos = a.pos ∧ b.size = a.size) bs (crashLane u bs scr).1 := by
  induction bs generalizing scr with
  | nil => simp [crashLane]
  | cons r rs ih =>
    by_cases h : r.isOverlapping u = true
    · simp [crashLane, h, ih]
    · simp [crashLane, h, ih, Rect.setColor]

/-- The screen after the crash stage. -/
theorem crashStage_screen (a : Engine) :
    (crashStage a).screen =
      if a.screen = state.play then
        (if (a.buildings1.any (fun r => r.isOverlapping a.user) ||
            a.buildings2.any (fun r => r.isOverlapping a.user)) = true
          then state.over else state.play)
      else a.screen := by
  unfold crashStage
  by_cases h : a.screen = state.play
  · simp only [h, if_true, crashLane_snd]
    by_cases h1 : a.buildings1.any (fun r => r.isOverlapping a.user) = true <;>
      by_cases h2 : a.buildings2.any (fun r => r.isOverlapping a.user) = true <;>
      simp [h1, h2, h]
  · simp [h]

/-- The crash stage changes lanes and screen only. -/
theorem crashStage_frame (a : Engine) :
    (crashStage a).user = a.user ∧ (crashStage a).score = a.score ∧
    (crashStage a).moveSpeed = a.moveSpeed ∧ (crashStage a).easyButton = a.easyButton ∧
    (crashStage a).mediumButton = a.mediumButton ∧ (crashStage a).hardButton = a.hardButton ∧
    (crashStage a).mountains = a.mountains ∧ (crashStage a).clouds = a.clouds ∧
    (crashStage a).mousePressedLastFrame = a.mousePressedLastFrame := by
  unfold crashStage
  split_ifs <;> simp

/-- Outside `play` the crash stage does nothing. -/
theorem crashStage_of_ne_play (a : Engine) (h : a.screen ≠ state.play) : crashStage a = a := by
  simp [crashStage, h]

/-- The clamp keeps the size of the player. -/
theorem clampUser_size (a : Engine) : (clampUser a).user.size = a.user.size := by
  simp only [clampUser]
  split_ifs <;> rfl

/-- A player hovering a button of a well-formed session lies strictly inside the window. -/
theorem hovered_inside (r : Engine) (hw : WellFormed r) (h : hovered r = true) :
    (moveUser r).user.getTop < 600 ∧ 0 < (moveUser r).user.getBottom ∧
    0 < (moveUser r).user.getLeft ∧ (moveUser r).user.getRight < 800 := by
  obtain ⟨hu, ⟨he1, he2⟩, ⟨hm1, hm2⟩, ⟨hh1, hh2⟩, -⟩ := hw
  simp only [hovered, Rect.isOverlapping, Rect.getLeft, Rect.getRight, Rect.getTop,
    Rect.getBottom, moveUser, Rect.setPosX, Rect.setPosY, hu, he1, he2, hm1, hm2, hh1, hh2,
    Bool.or_eq_true, Bool.and_eq_true, decide_eq_true_eq] at h ⊢
  rcases h with (h | h) | h <;> obtain ⟨⟨⟨h1, h2⟩, h3⟩, h4⟩ := h <;>
    refine ⟨?_, ?_, ?_, ?_⟩ <;> linarith

/-- Outside `over` the reset stage does nothing. -/
theorem resetStage_of_ne_over (s : Engine) (i : Input) (h : s.screen ≠ state.over) :
    resetStage (pollCursor s i) i = pollCursor s i := by
  simp [resetStage, pollCursor, h]

/-! ## C2: collision to loss -/

/-- Claim C2. For every session on the play screen and every input, after one
`processInput` call the screen is `over` exactly when the player box, at its final
clamped position, overlaps an obstacle of the near lane or of the far lane; if it overlaps
none the screen is still `play`.  The final player box is the clamp of the box placed at
the pointer. -/
theorem collision_to_loss (s : Engine) (i : Input) (h : s.screen = state.play) :
    ((processInput s i).screen = state.over ↔
      ∃ b : Rect, (b ∈ s.buildings1 ∨ b ∈ s.buildings2) ∧
        b.isOverlapping (processInput s i).user = true) ∧
    ((¬ ∃ b : Rect, (b ∈ s.buildings1 ∨ b ∈ s.buildings2) ∧
        b.isOverlapping (processInput s i).user = true) →
      (processInput s i).screen = state.play) ∧
    (processInput s i).user = (clampUser { s with user := playerAt s i }).user := by
  have hr : resetStage (pollCursor s i) i = pollCursor s i :=
    resetStage_of_ne_over s i (by simp [h])
  have hscr : (clampUser (buttonStages (pollCursor s i) i)).screen = state.play := by
    show (buttonStages (pollCursor s i) i).screen = state.play
    rw [buttonStages_screen]
    simp [pollCursor, h]
  have hb1 : (clampUser (buttonStages (pollCursor s i) i)).buildings1 = s.buildings1 :=
    (buttonStages_lanes (pollCursor s i) i).1
  have hb2 : (clampUser (buttonStages (pollCursor s i) i)).buildings2 = s.buildings2 :=
    (buttonStages_lanes (pollCursor s i) i).2.1
  have hu : (processInput s i).user = (clampUser (buttonStages (pollCursor s i) i)).user := by
    rw [processInput, hr]
    exact (crashStage_frame _).1
  have hs : (processInput s i).screen =
      if (s.buildings1.any (fun r => r.isOverlapping (processInput s i).user) ||
            s.buildings2.any (fun r => r.isOverlapping (processInput s i).user)) = true
          then state.over else state.play := by
    rw [hu, processInput, hr, crashStage_screen, if_pos hscr, hb1, hb2]
  have hany : (s.buildings1.any (fun r => r.isOverlapping (processInput s i).user) ||
            s.buildings2.any (fun r => r.isOverlapping (processInput s i).user)) = true ↔
      ∃ b : Rect, (b ∈ s.buildings1 ∨ b ∈ s.buildings2) ∧
        b.isOverlapping (processInput s i).user = true := by
    simp only [Bool.or_eq_true, List.any_eq_true]
    constructor
    · rintro (⟨b, hb, ho⟩ | ⟨b, hb, ho⟩)
      · exact ⟨b, Or.inl hb, ho⟩
      · exact ⟨b, Or.inr hb, ho⟩
    · rintro ⟨b, hb | hb, ho⟩
      · exact Or.inl ⟨b, hb, ho⟩
      · exact Or.inr ⟨b, hb, ho⟩
  refine ⟨?_, ?_, ?_⟩
  · rw [← hany]
    constructor
    · intro h1
      by_contra h2
      rw [hs, if_neg h2] at h1
      exact absurd h1 (by decide)
    · intro h1
      rw [hs, if_pos h1]
  · intro h1
    rw [← hany] at h1
    rw [hs, if_neg h1]
  · rw [hu]
    simp only [clampUser, buttonStages_user]
    rfl

/-- Claim C2 at a concrete session: the fresh level on the play screen, pointer at the
right border. -/
theorem collision_to_loss_witness :
    playingSession.screen = state.play ∧
    (((processInput playingSession pressAtPillar).screen = state.over ↔
      ∃ b : Rect, (b ∈ playingSession.buildings1 ∨ b ∈ playingSession.buildings2) ∧
        b.isOverlapping (processInput playingSession pressAtPillar).user = true) ∧
    ((¬ ∃ b : Rect, (b ∈ playingSession.buildings1 ∨ b ∈ playingSession.buildings2) ∧
        b.isOverlapping (processInput playingSession pressAtPillar).user = true) →
      (processInput playingSession pressAtPillar).screen = state.play) ∧
    (processInput playingSession pressAtPillar).user =
      (clampUser { playingSession with user := playerAt playingSession pressAtPillar }).user) :=
  ⟨rfl, collision_to_loss playingSession pressAtPillar rfl⟩

/-- The near lane after `initShapes`: three obstacles pushed onto what was there. -/
theorem initShapes_buildings1 (s : Engine) (rand : Nat → Nat) :
    (initShapes s rand).buildings1 =
      s.buildings1 ++ [nearPillar (rand 0) 0, nearPillar (rand 1) 325, nearPillar (rand 2) 650] := by
  simp [initShapes, buildLoop_zero]

/-- The far lane after `initShapes`: three obstacles pushed onto what was there. -/
theorem initShapes_buildings2 (s : Engine) (rand : Nat → Nat) :
    (initShapes s rand).buildings2 =
      s.buildings2 ++ [farPillar (rand 0) 0, farPillar (rand 1) 325, farPillar (rand 2) 650] := by
  simp [initShapes, buildLoop_zero]

/-- The left edge of a near obstacle is at `totalBuildingWidth + 800`. -/
theorem nearPillar_getLeft (r t : Nat) : (nearPillar r t).getLeft = (t : ℚ) + 800 := by
  simp only [nearPillar, Rect.getLeft]
  ring

/-- The left edge of a far obstacle is at `totalBuildingWidth + 800`. -/
theorem farPillar_getLeft (r t : Nat) : (farPillar r t).getLeft = (t : ℚ) + 800 := by
  simp only [farPillar, Rect.getLeft]
  ring

/-- The player and the buttons as `initShapes` makes them. -/
theorem initShapes_shapes (s : Engine) (rand : Nat → Nat) :
    (initShapes s rand).user = ⟨⟨0, 0⟩, ⟨10, 10⟩, white⟩ ∧
    ((initShapes s rand).easyButton.pos = ⟨266, 300⟩ ∧
      (initShapes s rand).easyButton.size = ⟨100, 50⟩) ∧
    ((initShapes s rand).mediumButton.pos = ⟨400, 300⟩ ∧
      (initShapes s rand).mediumButton.size = ⟨100, 50⟩) ∧
    ((initShapes s rand).hardButton.pos = ⟨1600 / 3, 300⟩ ∧
      (initShapes s rand).hardButton.size = ⟨100, 50⟩) := by
  simp only [initShapes, width, height]
  norm_num

/-- A level built on empty lanes lies to the right of the window. -/
theorem initShapes_right_of_window (s : Engine) (rand : Nat → Nat)
    (h1 : s.buildings1 = []) (h2 : s.buildings2 = []) (b : Rect)
    (hb : b ∈ (initShapes s rand).buildings1 ∨ b ∈ (initShapes s rand).buildings2) :
    (800 : ℚ) ≤ b.getLeft := by
  rw [initShapes_buildings1, initShapes_buildings2, h1, h2] at hb
  simp only [List.nil_append, List.mem_cons, List.mem_singleton, List.not_mem_nil, or_false] at hb
  rcases hb with (rfl | rfl | rfl) | (rfl | rfl | rfl) <;>
    simp only [nearPillar_getLeft, farPillar_getLeft] <;> norm_num

/-- The constructed session is well formed. -/
theorem wellFormed_construct (rand : Nat → Nat) : WellFormed (construct rand) := by
  obtain ⟨hu, he, hm, hh⟩ := initShapes_shapes blank rand
  refine ⟨by rw [construct, hu], he, hm, hh, fun _ b hb => ?_⟩
  exact initShapes_right_of_window blank rand rfl rfl b hb

/-- The reset stage when it fires. -/
theorem resetStage_fires (s : Engine) (i : Input) (hk : i.keyR = true) (ho : s.screen = state.over) :
    resetStage (pollCursor s i) i =
      { initShapes (clearLanes (pollCursor s i)) i.rand with screen := state.start } := by
  simp [resetStage, pollCursor, hk, ho]

/-- The reset stage when it does not fire. -/
theorem resetStage_idle (s : Engine) (i : Input) (h : ¬ (i.keyR = true ∧ s.screen = state.over)) :
    resetStage (pollCursor s i) i = pollCursor s i := by
  simp only [resetStage, pollCursor]
  rw [if_neg]
  simpa using h

/-- The reset stage keeps sessions well formed. -/
theorem wellFormed_resetStage (s : Engine) (i : Input) (hw : WellFormed s) :
    WellFormed (resetStage (pollCursor s i) i) := by
  by_cases h : i.keyR = true ∧ s.screen = state.over
  · rw [resetStage_fires s i h.1 h.2]
    obtain ⟨hu, he, hm, hh⟩ := initShapes_shapes (clearLanes (pollCursor s i)) i.rand
    refine ⟨?_, he, hm, hh, fun _ b hb => ?_⟩
    · show (initShapes (clearLanes (pollCursor s i)) i.rand).user.size = _
      rw [hu]
    · exact initShapes_right_of_window (clearLanes (pollCursor s i)) i.rand rfl rfl b hb
  · rw [resetStage_idle s i h]
    exact hw

/-- A player strictly inside the window is not moved by the clamp. -/
theorem clampUser_of_inside (a : Engine) (h1 : a.user.getTop < 600) (h2 : 0 < a.user.getBottom)
    (h3 : 0 < a.user.getLeft) (h4 : a.user.getRight < 800) : clampUser a = a := by
  simp only [clampUser, height, width]
  have e1 : ¬ (a.user.getTop ≥ ((600 : Nat) : ℚ)) := by push_cast; linarith
  rw [if_neg e1]
  have e2 : ¬ (a.user.getBottom ≤ 0) := by linarith
  rw [if_neg e2]
  have e3 : ¬ (a.user.getLeft ≤ 0) := by linarith
  rw [if_neg e3]
  have e4 : ¬ (a.user.getRight ≥ ((800 : Nat) : ℚ)) := by push_cast; linarith
  rw [if_neg e4]

/-- The stages after the reset, on a well-formed session on the start screen: either no
selection fires and the screen stays `start`, or one fires and the screen ends as `play`
(the hovering player cannot touch the level, which is still right of the window). -/
theorem afterReset_start (r : Engine) (i : Input) (hw : WellFormed r) (hs : r.screen = state.start) :
    (crashStage (clampUser (buttonStages r i))).screen =
      (if r.mousePressedLastFrame = true ∧ i.mouseLeft = false ∧ hovered r = true
        then state.play else state.start) ∧
    (crashStage (clampUser (buttonStages r i))).moveSpeed = (buttonStages r i).moveSpeed ∧
    (crashStage (clampUser (buttonStages r i))).score = r.score := by
  have hscore : (crashStage (clampUser (buttonStages r i))).score = r.score := by
    rw [(crashStage_frame _).2.1]
    exact (buttonStages_lanes r i).2.2.1
  refine ⟨?_, (crashStage_frame _).2.2.1, hscore⟩
  by_cases hf : r.mousePressedLastFrame = true ∧ i.mouseLeft = false ∧ hovered r = true
  · rw [if_pos hf]
    obtain ⟨i1, i2, i3, i4⟩ := hovered_inside r hw hf.2.2
    have hcl : clampUser (buttonStages r i) = buttonStages r i :=
      clampUser_of_inside _ (by rw [buttonStages_user]; exact i1)
        (by rw [buttonStages_user]; exact i2) (by rw [buttonStages_user]; exact i3)
        (by rw [buttonStages_user]; exact i4)
    have hplay : (buttonStages r i).screen = state.play := by
      rw [buttonStages_screen, if_pos ⟨hs, hf⟩]
    rw [hcl, crashStage_screen, if_pos hplay, (buttonStages_lanes r i).1,
      (buttonStages_lanes r i).2.1, buttonStages_user, if_neg]
    simp only [Bool.or_eq_true, List.any_eq_true, not_or, not_exists, not_and]
    have key : ∀ b : Rect, b ∈ r.buildings1 ∨ b ∈ r.buildings2 →
        ¬ b.isOverlapping (moveUser r).user = true := by
      intro b hb ho
      have hl := hw.2.2.2.2 hs b hb
      simp only [Rect.isOverlapping, Bool.and_eq_true, decide_eq_true_eq] at ho
      linarith [ho.1.1.1]
    exact ⟨fun b hb => key b (Or.inl hb), fun b hb => key b (Or.inr hb)⟩
  · rw [if_neg hf]
    have hst : (clampUser (buttonStages r i)).screen = state.start := by
      show (buttonStages r i).screen = state.start
      rw [buttonStages_screen, if_neg (fun h => hf h.2), hs]
    rw [crashStage_of_ne_play _ (by rw [hst]; decide), hst]

/-- The stages after the reset keep sessions well formed. -/
theorem wellFormed_afterReset (r : Engine) (i : Input) (hw : WellFormed r) :
    WellFormed (crashStage (clampUser (buttonStages r i))) := by
  obtain ⟨hu, he, hm, hh, hl⟩ := hw
  obtain ⟨be, bm, bh⟩ := buttonStages_buttons r i
  obtain ⟨f1, -, -, f4, f5, f6, -, -, -⟩ := crashStage_frame (clampUser (buttonStages r i))
  refine ⟨?_, ?_, ?_, ?_, ?_⟩
  · rw [f1, clampUser_size, buttonStages_user]
    exact hu
  · rw [f4]
    exact ⟨be.1.trans he.1, be.2.trans he.2⟩
  · rw [f5]
    exact ⟨bm.1.trans hm.1, bm.2.trans hm.2⟩
  · rw [f6]
    exact ⟨bh.1.trans hh.1, bh.2.trans hh.2⟩
  · intro hfin
    have hcs := crashStage_screen (clampUser (buttonStages r i))
    have hnp : (clampUser (buttonStages r i)).screen ≠ state.play := by
      intro hp
      rw [hcs, if_pos hp] at hfin
      split_ifs at hfin
    rw [crashStage_of_ne_play _ hnp] at hfin ⊢
    have hbs : (buttonStages r i).screen = state.start := hfin
    have hrs : r.screen = state.start := by
      rw [buttonStages_screen] at hbs
      split_ifs at hbs
      exact hbs
    intro b hb
    have hb1 : (clampUser (buttonStages r i)).buildings1 = r.buildings1 :=
      (buttonStages_lanes r i).1
    have hb2 : (clampUser (buttonStages r i)).buildings2 = r.buildings2 :=
      (buttonStages_lanes r i).2.1
    rw [hb1, hb2] at hb
    exact hl hrs b hb

/-- One call of `processInput` keeps sessions well formed. -/
theorem wellFormed_processInput (s : Engine) (i : Input) (hw : WellFormed s) :
    WellFormed (processInput s i) :=
  wellFormed_afterReset _ i (wellFormed_resetStage s i hw)

/-- One call of `update` keeps sessions well formed. -/
theorem wellFormed_update (f : Cloud → ℚ → ℚ → Cloud) (s : Engine) (hw : WellFormed s) :
    WellFormed (update f s) := by
  unfold update
  by_cases h : s.screen = state.play
  · rw [if_pos h]
    obtain ⟨hu, he, hm, hh, -⟩ := hw
    refine ⟨hu, he, hm, hh, fun hst => ?_⟩
    have : s.screen = state.start := hst
    rw [h] at this
    exact absurd this (by decide)
  · rw [if_neg h]
    exact hw

/-- Every reachable session is well formed. -/
theorem wellFormed_of_reachable (s : Engine) (h : Reachable s) : WellFormed s := by
  induction h with
  | construct rand => exact wellFormed_construct rand
  | processInput i _ ih => exact wellFormed_processInput _ i ih
  | update f _ ih => exact wellFormed_update f _ ih

/-- What the easy stage leaves alone, and the screen it leaves. -/
theorem easyStage_fields (a : Engine) (i : Input) :
    (easyStage a i).user = a.user ∧
    (easyStage a i).mousePressedLastFrame = a.mousePressedLastFrame ∧
    (easyStage a i).mediumButton = a.mediumButton ∧
    (easyStage a i).hardButton = a.hardButton ∧
    (easyStage a i).screen =
      (if selectionFires a i.mouseLeft (a.easyButton.isOverlapping a.user) = true
        then state.play else a.screen) := by
  simp only [easyStage, selectionFires]
  split_ifs <;> exact ⟨rfl, rfl, rfl, rfl, rfl⟩

/-- What the medium stage leaves alone, and the screen it leaves. -/
theorem mediumStage_fields (a : Engine) (i : Input) :
    (mediumStage a i).user = a.user ∧
    (mediumStage a i).mousePressedLastFrame = a.mousePressedLastFrame ∧
    (mediumStage a i).hardButton = a.hardButton ∧
    (mediumStage a i).screen =
      (if selectionFires a i.mouseLeft (a.mediumButton.isOverlapping a.user) = true
        then state.play else a.screen) := by
  simp only [mediumStage, selectionFires]
  split_ifs <;> exact ⟨rfl, rfl, rfl, rfl⟩

/-- The three selection conditions on a start screen: the first hovered button fires,
the later ones find the screen already changed. -/
theorem fires_on_start (s : Engine) (i : Input) (hs : s.screen = state.start) :
    easyFires s i = (s.mousePressedLastFrame && !i.mouseLeft &&
      s.easyButton.isOverlapping (playerAt s i)) ∧
    mediumFires s i = (s.mousePressedLastFrame && !i.mouseLeft &&
      s.mediumButton.isOverlapping (playerAt s i) &&
      !s.easyButton.isOverlapping (playerAt s i)) ∧
    hardFires s i = (s.mousePressedLastFrame && !i.mouseLeft &&
      s.hardButton.isOverlapping (playerAt s i) &&
      !s.easyButton.isOverlapping (playerAt s i) &&
      !s.mediumButton.isOverlapping (playerAt s i)) := by
  have hr : resetStage (pollCursor s i) i = pollCursor s i :=
    resetStage_of_ne_over s i (by simp [hs])
  have hu : (moveUser (pollCursor s i)).user = playerAt s i := rfl
  have hsc : (moveUser (pollCursor s i)).screen = state.start := hs
  have hl : (moveUser (pollCursor s i)).mousePressedLastFrame = s.mousePressedLastFrame := rfl
  have he : (moveUser (pollCursor s i)).easyButton = s.easyButton := rfl
  have hm : (moveUser (pollCursor s i)).mediumButton = s.mediumButton := rfl
  have hh : (moveUser (pollCursor s i)).hardButton = s.hardButton := rfl
  obtain ⟨e1, e2, e3, e4, e5⟩ := easyStage_fields (moveUser (pollCursor s i)) i
  obtain ⟨m1, m2, m3, m4⟩ := mediumStage_fields (easyStage (moveUser (pollCursor s i)) i) i
  simp only [easyFires, mediumFires, hardFires, hr]
  simp only [selectionFires, m1, m2, m3, m4, e1, e2, e3, e4, e5, hu, hsc, hl, he, hm, hh]
  generalize s.easyButton.isOverlapping (playerAt s i) = oe
  generalize s.mediumButton.isOverlapping (playerAt s i) = om
  generalize s.hardButton.isOverlapping (playerAt s i) = oh
  cases s.mousePressedLastFrame <;> cases i.mouseLeft <;> cases oe <;> cases om <;> cases oh <;>
    simp

/-! ## C1: difficulty selection -/

/-- The hover test of the button stages, in terms of the session the call started from. -/
theorem hovered_pollCursor (s : Engine) (i : Input) :
    hovered (pollCursor s i) = true ↔
      (s.easyButton.isOverlapping (playerAt s i) = true ∨
        s.mediumButton.isOverlapping (playerAt s i) = true ∨
        s.hardButton.isOverlapping (playerAt s i) = true) := by
  have hu : (moveUser (pollCursor s i)).user = playerAt s i := rfl
  have he : (pollCursor s i).easyButton = s.easyButton := rfl
  have hm : (pollCursor s i).mediumButton = s.mediumButton := rfl
  have hh : (pollCursor s i).hardButton = s.hardButton := rfl
  simp only [hovered, hu, he, hm, hh, Bool.or_eq_true, or_assoc]

/-- Claim C1. For every reachable session on the start screen and every input, the call
`processInput` moves the screen to `play` if and only if the left button was down on the
previous frame, is up on this frame, and the player box placed at the pointer
`(cursorX, height - cursorY)` overlaps one of the three buttons.  When that is so, exactly
one of the three selections fires, `moveSpeed` becomes the value of the first overlapped
button in the order easy (2), medium (5), hard (10), and the score is unchanged.
Otherwise (a press without release, a release over no button, ...) no selection fires
and screen, `moveSpeed` and score are unchanged. -/
theorem difficulty_selection (s : Engine) (i : Input) (hr : Reachable s)
    (hs : s.screen = state.start) :
    ((processInput s i).screen = state.play ↔ releaseClick s i) ∧
    (releaseClick s i →
      (easyFires s i).toNat + (mediumFires s i).toNat + (hardFires s i).toNat = 1 ∧
      (processInput s i).moveSpeed =
        (if s.easyButton.isOverlapping (playerAt s i) = true then 2
         else if s.mediumButton.isOverlapping (playerAt s i) = true then 5 else 10) ∧
      (processInput s i).score = s.score) ∧
    (¬ releaseClick s i →
      (easyFires s i).toNat + (mediumFires s i).toNat + (hardFires s i).toNat = 0 ∧
      (processInput s i).screen = state.start ∧
      (processInput s i).moveSpeed = s.moveSpeed ∧
      (processInput s i).score = s.score) := by
  have hw : WellFormed (pollCursor s i) := wellFormed_of_reachable s hr
  have hreset : resetStage (pollCursor s i) i = pollCursor s i :=
    resetStage_of_ne_over s i (by simp [hs])
  have hs2 : (pollCursor s i).screen = state.start := hs
  obtain ⟨a1, a2, a3⟩ := afterReset_start (pollCursor s i) i hw hs2
  have hl : (pollCursor s i).mousePressedLastFrame = s.mousePressedLastFrame := rfl
  have hu : (moveUser (pollCursor s i)).user = playerAt s i := rfl
  have he : (pollCursor s i).easyButton = s.easyButton := rfl
  have hm : (pollCursor s i).mediumButton = s.mediumButton := rfl
  have hcond : ((pollCursor s i).mousePressedLastFrame = true ∧ i.mouseLeft = false ∧
      hovered (pollCursor s i) = true) ↔ releaseClick s i := by
    rw [hl, hovered_pollCursor]
    rfl
  have hsp := buttonStages_moveSpeed (pollCursor s i) i
  obtain ⟨f1, f2, f3⟩ := fires_on_start s i hs
  have hplay : releaseClick s i → (processInput s i).screen = state.play := by
    intro hc
    rw [processInput, hreset, a1, if_pos (hcond.2 hc)]
  have hstart : ¬ releaseClick s i → (processInput s i).screen = state.start := by
    intro hc
    rw [processInput, hreset, a1, if_neg (fun h => hc (hcond.1 h))]
  refine ⟨?_, ?_, ?_⟩
  · constructor
    · intro hp
      by_contra hc
      rw [hstart hc] at hp
      exact absurd hp (by decide)
    · exact hplay
  · intro hc
    refine ⟨?_, ?_, ?_⟩
    · rw [f1, f2, f3]
      obtain ⟨c1, c2, c3⟩ := hc
      rw [c1, c2]
      rcases Bool.eq_false_or_eq_true (s.easyButton.isOverlapping (playerAt s i)) with oe | oe <;>
        rcases Bool.eq_false_or_eq_true (s.mediumButton.isOverlapping (playerAt s i))
          with om | om <;>
        rcases Bool.eq_false_or_eq_true (s.hardButton.isOverlapping (playerAt s i))
          with oh | oh <;>
        simp_all
    · rw [processInput, hreset, a2, hsp, if_pos ⟨hs2, hcond.2 hc⟩, hu, he, hm]
    · rw [processInput, hreset, a3]
      rfl
  · intro hc
    refine ⟨?_, ?_, ?_, ?_⟩
    · rw [f1, f2, f3]
      have hc2 : ¬ (s.mousePressedLastFrame = true ∧ i.mouseLeft = false ∧
          (s.easyButton.isOverlapping (playerAt s i) = true ∨
            s.mediumButton.isOverlapping (playerAt s i) = true ∨
            s.hardButton.isOverlapping (playerAt s i) = true)) := hc
      rcases Bool.eq_false_or_eq_true (s.easyButton.isOverlapping (playerAt s i)) with oe | oe <;>
        rcases Bool.eq_false_or_eq_true (s.mediumButton.isOverlapping (playerAt s i))
          with om | om <;>
        rcases Bool.eq_false_or_eq_true (s.hardButton.isOverlapping (playerAt s i))
          with oh | oh <;>
        rcases Bool.eq_false_or_eq_true s.mousePressedLastFrame with ol | ol <;>
        rcases Bool.eq_false_or_eq_true i.mouseLeft with op | op <;>
        simp_all
    · exact hstart hc
    · rw [processInput, hreset, a2, hsp, if_neg (fun h => hc (hcond.1 h.2))]
      rfl
    · rw [processInput, hreset, a3]
      rfl

/-- Claim C1 at a concrete run: from the fresh session the button goes down over the easy
button, then up again; the release-click gives `play`, speed 2 and score 0. -/
theorem difficulty_selection_witness :
    Reachable pressedSession ∧ pressedSession.screen = state.start ∧
    releaseClick pressedSession releaseEasy ∧
    (processInput pressedSession releaseEasy).screen = state.play ∧
    (processInput pressedSession releaseEasy).moveSpeed = 2 ∧
    (processInput pressedSession releaseEasy).score = 0 := by
  have hr : Reachable pressedSession :=
    Reachable.processInput pressEasy (Reachable.construct sevens)
  have hs : pressedSession.screen = state.start := by decide
  obtain ⟨hu, ⟨he1, he2⟩, -⟩ := wellFormed_of_reachable _ hr
  have ho : pressedSession.easyButton.isOverlapping (playerAt pressedSession releaseEasy) = true := by
    simp only [Rect.isOverlapping, Rect.getLeft, Rect.getRight, Rect.getTop, Rect.getBottom,
      playerAt, Rect.setPosX, Rect.setPosY, he1, he2, hu, releaseEasy, height]
    norm_num
  have hc : releaseClick pressedSession releaseEasy := ⟨by decide, rfl, Or.inl ho⟩
  obtain ⟨h1, h2, -⟩ := difficulty_selection pressedSession releaseEasy hr hs
  obtain ⟨-, h3, h4⟩ := h2 hc
  refine ⟨hr, hs, hc, h1.2 hc, ?_, ?_⟩
  · rw [h3, if_pos ho]
  · rw [h4]
    decide

/-! ## C3: clamping of the player -/

/-- Claim C3, which the code does not meet: the clamp tests an edge of the player box
against the border but then sets the centre to the border.  With the pointer 3 units
inside the top right corner the player ends with top 605 and right 805, outside the
800x600 playfield; with the pointer 2 units inside the bottom left corner it ends with
bottom -5 and left -5. -/
theorem clamp_sets_centre_on_border :
    (processInput freshSession pointerTopRight).user.getTop = 605 ∧
    (processInput freshSession pointerTopRight).user.getRight = 805 ∧
    (processInput freshSession pointerBottomLeft).user.getBottom = -5 ∧
    (processInput freshSession pointerBottomLeft).user.getLeft = -5 ∧
    ¬ (processInput freshSession pointerTopRight).user.getTop ≤ (height : ℚ) := by
  decide!

/-! ## The level after the reset stage -/

/-- A crash loop in which no obstacle overlaps the player paints the whole lane gray and
leaves the screen alone. -/
theorem crashLane_of_none (u : Rect) (bs : List Rect) (scr : state)
    (h : ∀ b ∈ bs, b.isOverlapping u = false) :
    crashLane u bs scr = (bs.map (fun b => b.setColor gray), scr) := by
  induction bs generalizing scr with
  | nil => rfl
  | cons r rs ih =>
    have hr : r.isOverlapping u = false := h r (List.mem_cons_self r rs)
    have hrs : ∀ b ∈ rs, b.isOverlapping u = false := fun b hb => h b (List.mem_cons_of_mem r hb)
    simp [crashLane, hr, ih _ hrs]

/-- On a well-formed start screen a player hovering a button overlaps no obstacle. -/
theorem no_overlap_of_hovered (r : Engine) (hw : WellFormed r) (hs : r.screen = state.start)
    (hov : hovered r = true) (b : Rect) (hb : b ∈ r.buildings1 ∨ b ∈ r.buildings2) :
    b.isOverlapping (moveUser r).user = false := by
  obtain ⟨-, -, -, i4⟩ := hovered_inside r hw hov
  have hl := hw.2.2.2.2 hs b hb
  rcases Bool.eq_false_or_eq_true (b.isOverlapping (moveUser r).user) with ho | ho
  · simp only [Rect.isOverlapping, Bool.and_eq_true, decide_eq_true_eq] at ho
    linarith [ho.1.1.1]
  · exact ho

/-- The session a firing reset stage leaves is well formed, whatever it was before. -/
theorem wellFormed_fresh (x : Engine) (rand : Nat → Nat) (h1 : x.buildings1 = [])
    (h2 : x.buildings2 = []) :
    WellFormed { initShapes x rand with screen := state.start } := by
  obtain ⟨hu, he, hm, hh⟩ := initShapes_shapes x rand
  refine ⟨?_, he, hm, hh, fun _ b hb => ?_⟩
  · show (initShapes x rand).user.size = _
    rw [hu]
  · exact initShapes_right_of_window x rand h1 h2 b hb

/-! ## The lane loops of `update` -/

/-- Related lists have related entries at every index. -/
theorem forall₂_lookup {R : Rect → Rect → Prop} {a b : List Rect} (h : List.Forall₂ R a b)
    (k : Nat) (x : Rect) (hx : a[k]? = some x) : ∃ y, b[k]? = some y ∧ R x y := by
  induction h generalizing k with
  | nil => simp at hx
  | cons hxy _ ih =>
    cases k with
    | zero =>
      simp only [List.getElem?_cons_zero, Option.some.injEq] at hx
      subst hx
      exact ⟨_, by simp, hxy⟩
    | succ k =>
      simp only [List.getElem?_cons_succ] at hx ⊢
      exact ih k hx

/-- Related lists stay related when related values are written at the same index. -/
theorem forall₂_set {R : Rect → Rect → Prop} {a b : List Rect} (h : List.Forall₂ R a b)
    (k : Nat) (x y : Rect) (hxy : R x y) : List.Forall₂ R (a.set k x) (b.set k y) := by
  induction h generalizing k with
  | nil => simp
  | cons hab _ ih =>
    cases k with
    | zero => simp only [List.set_cons_zero]; exact List.Forall₂.cons hxy ‹_›
    | succ k => simp only [List.set_cons_succ]; exact List.Forall₂.cons hab (ih k)

/-- Related lists run out at the same index. -/
theorem forall₂_lookup_none {R : Rect → Rect → Prop} {a b : List Rect}
    (h : List.Forall₂ R a b) (k : Nat) (hx : a[k]? = none) : b[k]? = none := by
  have hl := h.length_eq
  rw [List.getElem?_eq_none_iff] at hx ⊢
  omega

/-- The near step and the far step do the same to a lane. -/
theorem nearStep_fst (v : ℚ) (lane : List Rect) (sc : Int) (k : Nat) :
    (nearStep v (lane, sc) k).1 = farStep v lane k := by
  rcases hx : lane[k]? with _ | x
  · simp only [nearStep, farStep, hx]
  · by_cases hc : (x.moveX (-v)).getPosX < -((x.moveX (-v)).getSize.x / 2)
    · simp only [nearStep, farStep, hx, if_pos hc]
      rcases (lane.set k (x.moveX (-v)))[if k = 0 then (lane.set k (x.moveX (-v))).length - 1
          else k - 1]? with _ | l <;> rfl
    · simp only [nearStep, farStep, hx, if_neg hc]

/-- One step of the far loop keeps two lanes paired. -/
theorem farStep_paired (v : ℚ) (a b : List Rect) (k : Nat) (h : List.Forall₂ Paired a b) :
    List.Forall₂ Paired (farStep v a k) (farStep v b k) := by
  have hlen := h.length_eq
  rcases hx : a[k]? with _ | x
  · have hy := forall₂_lookup_none h k hx
    simp only [farStep, hx, hy]
    exact h
  · obtain ⟨y, hy, hxy⟩ := forall₂_lookup h k x hx
    have hmoved : Paired (x.moveX (-v)) (y.moveX (-v)) := by
      obtain ⟨p1, p2, p3⟩ := hxy
      exact ⟨by simp only [Rect.moveX, Rect.setPosX, p1], p2, p3⟩
    have h1 : List.Forall₂ Paired (a.set k (x.moveX (-v))) (b.set k (y.moveX (-v))) :=
      forall₂_set h k _ _ hmoved
    have hcond : ((x.moveX (-v)).getPosX < -((x.moveX (-v)).getSize.x / 2)) ↔
        ((y.moveX (-v)).getPosX < -((y.moveX (-v)).getSize.x / 2)) := by
      obtain ⟨p1, p2, -⟩ := hmoved
      simp only [Rect.getPosX, Rect.getSize, p1, p2]
    simp only [farStep, hx, hy]
    by_cases hc : (x.moveX (-v)).getPosX < -((x.moveX (-v)).getSize.x / 2)
    · rw [if_pos hc, if_pos (hcond.1 hc)]
      have hidx : (if k = 0 then (a.set k (x.moveX (-v))).length - 1 else k - 1) =
          (if k = 0 then (b.set k (y.moveX (-v))).length - 1 else k - 1) := by
        simp only [List.length_set, hlen]
      rw [← hidx]
      rcases hl : (a.set k (x.moveX (-v)))[if k = 0 then (a.set k (x.moveX (-v))).length - 1
          else k - 1]? with _ | l
      · rw [forall₂_lookup_none h1 _ hl]
        exact h1
      · obtain ⟨l', hl', hll⟩ := forall₂_lookup h1 _ l hl
        rw [hl']
        refine forall₂_set h1 k _ _ ?_
        obtain ⟨p1, p2, p3⟩ := hmoved
        obtain ⟨q1, q2, -⟩ := hll
        refine ⟨?_, p2, p3⟩
        simp only [Rect.setPosX, Rect.getPosX, Rect.getSize, q1, q2, p2]
    · rw [if_neg hc, if_neg (fun h' => hc (hcond.2 h'))]
      exact h1

/-- Writing at index `k` a value that is related to whatever the old entry was related to
keeps the lists related. -/
theorem forall₂_set_right {R : Rect → Rect → Prop} {orig a : List Rect}
    (h : List.Forall₂ R orig a) (k : Nat) (x z : Rect) (hx : a[k]? = some x)
    (hz : ∀ o : Rect, R o x → R o z) : List.Forall₂ R orig (a.set k z) := by
  induction h generalizing k with
  | nil => simp
  | cons hab hrest ih =>
    cases k with
    | zero =>
      simp only [List.getElem?_cons_zero, Option.some.injEq] at hx
      subst hx
      simp only [List.set_cons_zero]
      exact List.Forall₂.cons (hz _ hab) hrest
    | succ k =>
      simp only [List.getElem?_cons_succ] at hx
      simp only [List.set_cons_succ]
      exact List.Forall₂.cons hab (ih k hx)

/-- One step of the far loop changes nothing but x positions. -/
theorem farStep_sameButX (v : ℚ) (orig a : List Rect) (k : Nat)
    (h : List.Forall₂ SameButX orig a) : List.Forall₂ SameButX orig (farStep v a k) := by
  rcases hx : a[k]? with _ | x
  · simp only [farStep, hx]
    exact h
  · have h1 : List.Forall₂ SameButX orig (a.set k (x.moveX (-v))) :=
      forall₂_set_right h k x _ hx (fun o ho => ho)
    have hx1 : (a.set k (x.moveX (-v)))[k]? = some (x.moveX (-v)) := by
      have hk : k < a.length := by
        rcases Nat.lt_or_ge k a.length with hlt | hge
        · exact hlt
        · rw [List.getElem?_eq_none_iff.2 hge] at hx
          exact absurd hx (by simp)
      simp [List.getElem?_set, hk]
    by_cases hc : (x.moveX (-v)).getPosX < -((x.moveX (-v)).getSize.x / 2)
    · simp only [farStep, hx, if_pos hc]
      rcases (a.set k (x.moveX (-v)))[if k = 0 then (a.set k (x.moveX (-v))).length - 1
          else k - 1]? with _ | l
      · exact h1
      · exact forall₂_set_right h1 k _ _ hx1 (fun o ho => ho)
    · simp only [farStep, hx, if_neg hc]
      exact h1

/-- The near loop and the far loop do the same to a lane, along any list of indices. -/
theorem foldl_nearStep_fst (v : ℚ) (idxs : List Nat) :
    ∀ (lane : List Rect) (sc : Int),
      (idxs.foldl (nearStep v) (lane, sc)).1 = idxs.foldl (farStep v) lane := by
  induction idxs with
  | nil => intro lane sc; rfl
  | cons k rest ih =>
    intro lane sc
    simp only [List.foldl_cons]
    have h : nearStep v (lane, sc) k = (farStep v lane k, (nearStep v (lane, sc) k).2) := by
      rw [← nearStep_fst v lane sc k]
    rw [h]
    exact ih _ _

/-- The lane the near loop leaves is the lane the far loop would leave. -/
theorem nearLoop_fst (v : ℚ) (lane : List Rect) (sc : Int) :
    (nearLoop v lane sc).1 = farLoop v lane :=
  foldl_nearStep_fst v _ lane sc

/-- The far loop keeps two lanes paired. -/
theorem farLoop_paired (v : ℚ) (a b : List Rect) (h : List.Forall₂ Paired a b) :
    List.Forall₂ Paired (farLoop v a) (farLoop v b) := by
  have key : ∀ (idxs : List Nat) (a b : List Rect), List.Forall₂ Paired a b →
      List.Forall₂ Paired (idxs.foldl (farStep v) a) (idxs.foldl (farStep v) b) := by
    intro idxs
    induction idxs with
    | nil => intro a b h; exact h
    | cons k rest ih =>
      intro a b h
      simp only [List.foldl_cons]
      exact ih _ _ (farStep_paired v a b k h)
  unfold farLoop
  rw [← h.length_eq]
  exact key _ a b h

/-- The far loop changes nothing but x positions. -/
theorem farLoop_sameButX (v : ℚ) (a : List Rect) : List.Forall₂ SameButX a (farLoop v a) := by
  have key : ∀ (idxs : List Nat) (c : List Rect), List.Forall₂ SameButX a c →
      List.Forall₂ SameButX a (idxs.foldl (farStep v) c) := by
    intro idxs
    induction idxs with
    | nil => intro c h; exact h
    | cons k rest ih =>
      intro c h
      simp only [List.foldl_cons]
      exact ih _ (farStep_sameButX v a c k h)
  exact key _ a (List.forall₂_same.2 (fun r _ => ⟨rfl, rfl, rfl⟩))

/-! ## Score and lanes after a call -/

/-- The lanes after `update` on the play screen: both go through the same loop. -/
theorem update_lanes (f : Cloud → ℚ → ℚ → Cloud) (s : Engine) (h : s.screen = state.play) :
    (update f s).buildings1 = farLoop s.moveSpeed s.buildings1 ∧
    (update f s).buildings2 = farLoop s.moveSpeed s.buildings2 := by
  unfold update
  rw [if_pos h]
  exact ⟨nearLoop_fst _ _ _, rfl⟩

/-- Calling `update` any number of times keeps a session reachable. -/
theorem reachable_iterate_update (f : Cloud → ℚ → ℚ → Cloud) (n : Nat) (s : Engine)
    (h : Reachable s) : Reachable ((update f)^[n] s) := by
  induction n generalizing s with
  | zero => exact h
  | succ n ih => exact ih _ (Reachable.update f h)

/-- The session `lateSession` is reachable. -/
theorem reachable_lateSession : Reachable lateSession :=
  reachable_iterate_update driftCloud 412 easySession
    (Reachable.processInput releaseEasy
      (Reachable.processInput pressEasy (Reachable.construct sevens)))

/-- The session `lateSession`: in play at speed 2, score still 0, lanes `lateNear` and
`lateFar`. -/
theorem lateSession_facts :
    lateSession.screen = state.play ∧ lateSession.moveSpeed = 2 ∧ lateSession.score = 0 ∧
    lateSession.buildings1 = lateNear ∧ lateSession.buildings2 = lateFar := by
  decide!

/-! ## C6: the recycling loop against the two-phase algorithm of the specification -/

/-- Claim C6, which the code does not meet.  In the reachable session `lateSession` (lanes
`lateNear` and `lateFar`, speed 2) the first obstacle is recycled by the next `update`.
The loop places it relative to its array-left neighbour, the last obstacle, before that
one has been moved in this call: it lands at 963.5, where the two-phase algorithm puts
it at 961.5, and at the end of the call its left edge is 302 units, not 300, right of the
right edge of the last obstacle. -/
theorem recycle_index_zero_reads_unmoved_neighbour :
    Reachable lateSession ∧ lateSession.screen = state.play ∧
    (update driftCloud lateSession).buildings1.map (fun b => b.pos.x) =
      [1927 / 2, 623 / 2, 1273 / 2] ∧
    (specTwoPhase lateSession.moveSpeed lateSession.buildings1).map (fun b => b.pos.x) =
      [1923 / 2, 623 / 2, 1273 / 2] ∧
    (update driftCloud lateSession).buildings1 ≠
      specTwoPhase lateSession.moveSpeed lateSession.buildings1 ∧
    (update driftCloud lateSession).buildings2 ≠
      specTwoPhase lateSession.moveSpeed lateSession.buildings2 ∧
    gapToLeftNeighbour (update driftCloud lateSession).buildings1 0 = some 302 ∧
    gapToLeftNeighbour (specTwoPhase lateSession.moveSpeed lateSession.buildings1) 0 =
      some 300 := by
  obtain ⟨h1, h2, -, h4, h5⟩ := lateSession_facts
  obtain ⟨u1, u2⟩ := update_lanes driftCloud lateSession h1
  rw [u1, u2, h2, h4, h5]
  refine ⟨reachable_lateSession, h1, ?_, ?_, ?_, ?_, ?_, ?_⟩ <;> decide!

/-! ## C7: the lanes stay paired -/

/-- The near and the far obstacle of one round of the level loop are paired. -/
theorem paired_pillars (r t : Nat) : Paired (nearPillar r t) (farPillar r t) :=
  ⟨rfl, rfl, rfl⟩

/-- In every session reached from a level build by `update` calls the lanes are paired. -/
theorem paired_of_levelReach (s : Engine) (h : LevelReach s) :
    List.Forall₂ Paired s.buildings1 s.buildings2 := by
  induction h with
  | build s rand h1 h2 =>
    rw [initShapes_buildings1, initShapes_buildings2, h1, h2]
    exact List.Forall₂.cons (paired_pillars _ _) (List.Forall₂.cons (paired_pillars _ _)
      (List.Forall₂.cons (paired_pillars _ _) List.Forall₂.nil))
  | @update s f v _ ih =>
    by_cases hp : s.screen = state.play
    · obtain ⟨u1, u2⟩ := update_lanes f { s with moveSpeed := v } hp
      rw [u1, u2]
      exact farLoop_paired v _ _ ih
    · have : update f { s with moveSpeed := v } = { s with moveSpeed := v } := by
        unfold update
        rw [if_neg hp]
      rw [this]
      exact ih

/-- The lanes after `update` differ from the lanes before in x positions only. -/
theorem update_sameButX (f : Cloud → ℚ → ℚ → Cloud) (s : Engine) :
    List.Forall₂ SameButX s.buildings1 (update f s).buildings1 ∧
    List.Forall₂ SameButX s.buildings2 (update f s).buildings2 := by
  by_cases hp : s.screen = state.play
  · obtain ⟨u1, u2⟩ := update_lanes f s hp
    rw [u1, u2]
    exact ⟨farLoop_sameButX _ _, farLoop_sameButX _ _⟩
  · have : update f s = s := by
      unfold update
      rw [if_neg hp]
    rw [this]
    exact ⟨List.forall₂_same.2 (fun r _ => ⟨rfl, rfl, rfl⟩),
      List.forall₂_same.2 (fun r _ => ⟨rfl, rfl, rfl⟩)⟩

/-- Claim C7. In every session reached from a level build by any number of `update`
calls, with any value of `moveSpeed` at each call, the near and the far lane have the same
length and at every index the two obstacles have the same centre x and the same width,
the far one being 600 higher than the near one.  An `update` call changes no obstacle's
size, y position or colour, only x positions, and keeps the length of each lane. -/
theorem lanes_stay_paired (s : Engine) (h : LevelReach s) :
    s.buildings1.length = s.buildings2.length ∧
    (∀ (k : Nat) (n f : Rect), s.buildings1[k]? = some n → s.buildings2[k]? = some f →
      n.pos.x = f.pos.x ∧ n.size.x = f.size.x ∧ f.size.y = n.size.y + 600) ∧
    (∀ g : Cloud → ℚ → ℚ → Cloud,
      (update g s).buildings1.length = s.buildings1.length ∧
      (update g s).buildings2.length = s.buildings2.length ∧
      (∀ (k : Nat) (a b : Rect), s.buildings1[k]? = some a →
        (update g s).buildings1[k]? = some b → b.pos.y = a.pos.y ∧ b.size = a.size) ∧
      (∀ (k : Nat) (a b : Rect), s.buildings2[k]? = some a →
        (update g s).buildings2[k]? = some b → b.pos.y = a.pos.y ∧ b.size = a.size)) := by
  have hp := paired_of_levelReach s h
  refine ⟨hp.length_eq, ?_, ?_⟩
  · intro k n f hn hf
    obtain ⟨y, hy, hny⟩ := forall₂_lookup hp k n hn
    rw [hf] at hy
    cases hy
    exact hny
  · intro g
    obtain ⟨s1, s2⟩ := update_sameButX g s
    refine ⟨s1.length_eq.symm, s2.length_eq.symm, ?_, ?_⟩
    · intro k a b ha hb
      obtain ⟨y, hy, hay⟩ := forall₂_lookup s1 k a ha
      rw [hb] at hy
      cases hy
      exact ⟨hay.1, hay.2.1⟩
    · intro k a b ha hb
      obtain ⟨y, hy, hay⟩ := forall₂_lookup s2 k a ha
      rw [hb] at hy
      cases hy
      exact ⟨hay.1, hay.2.1⟩

/-- Claim C7 at a concrete session: the level built on the fresh play screen, after one
`update` at speed 5 and one at speed 1000. -/
theorem lanes_stay_paired_witness :
    LevelReach (update driftCloud { update driftCloud
      { initShapes { blank with screen := state.play } sevens with moveSpeed := 5 }
      with moveSpeed := 1000 }) ∧
    (update driftCloud { update driftCloud
      { initShapes { blank with screen := state.play } sevens with moveSpeed := 5 }
      with moveSpeed := 1000 }).buildings1.length =
    (update driftCloud { update driftCloud
      { initShapes { blank with screen := state.play } sevens with moveSpeed := 5 }
      with moveSpeed := 1000 }).buildings2.length :=
  ⟨LevelReach.update driftCloud 1000
      (LevelReach.update driftCloud 5 (LevelReach.build _ sevens rfl rfl)),
    (lanes_stay_paired _ (LevelReach.update driftCloud 1000
      (LevelReach.update driftCloud 5 (LevelReach.build _ sevens rfl rfl)))).1⟩

/-! ## C8: geometry of the level builder -/

/-- Claim C8. Whatever the random source returns, `initShapes` pushes three pairs of
obstacles, built in rounds with `totalBuildingWidth` 0, 325 and 650.  For every value `r`
of `rand()` the pair of a round has both widths 25, near height `h = r % 500 + 40` (so
`40 ≤ h < 540`), far height `h + 600`, the same centre x for near and far, the near
obstacle standing on y = 0 with its top at `h`, and the far obstacle starting at
`h + 40`: a vertical gap of exactly 40.  The centres of consecutive pairs are
325 = 25 + 300 apart. -/
theorem level_builder_geometry (s : Engine) (rand : Nat → Nat) :
    (initShapes s rand).buildings1 =
      s.buildings1 ++ [nearPillar (rand 0) 0, nearPillar (rand 1) 325, nearPillar (rand 2) 650] ∧
    (initShapes s rand).buildings2 =
      s.buildings2 ++ [farPillar (rand 0) 0, farPillar (rand 1) 325, farPillar (rand 2) 650] ∧
    (∀ r t : Nat,
      (nearPillar r t).size = ⟨25, ((r % 500 + 40 : Nat) : ℚ)⟩ ∧
      40 ≤ r % 500 + 40 ∧ r % 500 + 40 < 540 ∧
      (farPillar r t).size = ⟨25, ((r % 500 + 40 : Nat) : ℚ) + 600⟩ ∧
      (nearPillar r t).pos.x = (farPillar r t).pos.x ∧
      (nearPillar r t).pos.x = (t : ℚ) + 25 / 2 + 800 ∧
      (nearPillar r t).getBottom = 0 ∧
      (nearPillar r t).getTop = ((r % 500 + 40 : Nat) : ℚ) ∧
      (farPillar r t).getBottom = ((r % 500 + 40 : Nat) : ℚ) + 40 ∧
      (farPillar r t).getBottom - (nearPillar r t).getTop = 40) ∧
    (∀ r r2 t : Nat, (nearPillar r2 (t + (25 + 300))).pos.x - (nearPillar r t).pos.x = 325 ∧
      (farPillar r2 (t + (25 + 300))).pos.x - (farPillar r t).pos.x = 325) := by
  refine ⟨initShapes_buildings1 s rand, initShapes_buildings2 s rand, ?_, ?_⟩
  · intro r t
    have hmod : r % 500 < 500 := Nat.mod_lt _ (by decide)
    refine ⟨rfl, by omega, by omega, rfl, rfl, rfl, ?_, ?_, ?_, ?_⟩
    · simp only [nearPillar, Rect.getBottom]
      ring
    · simp only [nearPillar, Rect.getTop]
      ring
    · simp only [farPillar, Rect.getBottom]
      ring
    · simp only [farPillar, nearPillar, Rect.getBottom, Rect.getTop]
      ring
  · intro r r2 t
    constructor
    · simp only [nearPillar]
      push_cast
      ring
    · simp only [farPillar]
      push_cast
      ring

/-! ## C9: the transitions of the screen -/

/-- The screen after `processInput` when the call starts in `play`. -/
theorem processInput_from_play (s : Engine) (i : Input) (h : s.screen = state.play) :
    (processInput s i).screen = state.play ∨ (processInput s i).screen = state.over := by
  have hr : resetStage (pollCursor s i) i = pollCursor s i :=
    resetStage_of_ne_over s i (by simp [h])
  rw [processInput, hr, crashStage_screen]
  split_ifs
  · exact Or.inr rfl
  · exact Or.inl rfl
  · rename_i hn
    exfalso
    apply hn
    show (buttonStages (pollCursor s i) i).screen = state.play
    rw [buttonStages_screen]
    simp [pollCursor, h]

/-- The screen after `processInput` when the call starts in `over` and the reset key is up. -/
theorem processInput_from_over_idle (s : Engine) (i : Input) (h : s.screen = state.over)
    (hk : i.keyR = false) : (processInput s i).screen = state.over := by
  have hr : resetStage (pollCursor s i) i = pollCursor s i :=
    resetStage_idle s i (by simp [hk])
  have hb : (clampUser (buttonStages (pollCursor s i) i)).screen = state.over := by
    show (buttonStages (pollCursor s i) i).screen = state.over
    rw [buttonStages_screen]
    simp [pollCursor, h]
  rw [processInput, hr, crashStage_of_ne_play _ (by rw [hb]; decide), hb]

/-- The screen after `processInput` when the call starts in `over` and the reset key is
down: `start`, or `play` when a selection fires in the same call. -/
theorem processInput_from_over_reset (s : Engine) (i : Input) (h : s.screen = state.over)
    (hk : i.keyR = true) :
    (processInput s i).screen =
      if s.mousePressedLastFrame = true ∧ i.mouseLeft = false ∧
          hovered (resetStage (pollCursor s i) i) = true
        then state.play else state.start := by
  have hfire := resetStage_fires s i hk h
  have hw : WellFormed (resetStage (pollCursor s i) i) := by
    rw [hfire]
    exact wellFormed_fresh _ i.rand rfl rfl
  have hs : (resetStage (pollCursor s i) i).screen = state.start := by rw [hfire]
  have hl : (resetStage (pollCursor s i) i).mousePressedLastFrame = s.mousePressedLastFrame := by
    rw [hfire]
    rfl
  rw [processInput, (afterReset_start _ i hw hs).1, hl]

/-- The screen after `processInput` when a reachable session starts the call in `start`. -/
theorem processInput_from_start (s : Engine) (i : Input) (hr : Reachable s)
    (h : s.screen = state.start) :
    (processInput s i).screen = state.start ∨ (processInput s i).screen = state.play := by
  have hw : WellFormed (pollCursor s i) := wellFormed_of_reachable s hr
  have hreset : resetStage (pollCursor s i) i = pollCursor s i :=
    resetStage_of_ne_over s i (by simp [h])
  rw [processInput, hreset, (afterReset_start (pollCursor s i) i hw h).1]
  split_ifs
  · exact Or.inr rfl
  · exact Or.inl rfl

/-- Claim C9 as stated fails: a single `processInput` call can take the screen from `over`
to `play`.  The session `crashedSession` is reachable and on the over screen, the left
button was down on its last frame; with the reset key down and the button released over
the easy button the reset fires and, in the same call, so does the selection. -/
theorem over_to_play_in_one_call :
    Reachable crashedSession ∧ crashedSession.screen = state.over ∧
    (processInput crashedSession resetAndReleaseEasy).screen = state.play ∧
    ¬ (∀ (s : Engine) (i : Input), Reachable s →
        (processInput s i).screen = s.screen ∨
        (s.screen = state.start ∧ (processInput s i).screen = state.play) ∨
        (s.screen = state.play ∧ (processInput s i).screen = state.over) ∨
        (s.screen = state.over ∧ (processInput s i).screen = state.start)) := by
  have hr : Reachable crashedSession :=
    Reachable.processInput pressAtPillar (Reachable.processInput releaseEasy
      (Reachable.processInput pressEasy (Reachable.construct sevens)))
  have h1 : crashedSession.screen = state.over := by decide!
  have h2 : (processInput crashedSession resetAndReleaseEasy).screen = state.play := by decide!
  refine ⟨hr, h1, h2, fun hall => ?_⟩
  have := hall crashedSession resetAndReleaseEasy hr
  rw [h1, h2] at this
  revert this
  decide

/-! ## C10: what a reset does to the decorations -/

/-- The decorations after `processInput` when the reset fires: `initShapes` pushes two
more mountains and three more clouds onto vectors that the reset did not clear. -/
theorem processInput_reset_decorations (s : Engine) (i : Input) (h : s.screen = state.over)
    (hk : i.keyR = true) :
    (processInput s i).mountains.length = s.mountains.length + 2 ∧
    (processInput s i).clouds = s.clouds ++ [⟨⟨200, 500⟩⟩, ⟨⟨400, 520⟩⟩, ⟨⟨325, 480⟩⟩] := by
  have hm : (processInput s i).mountains = (resetStage (pollCursor s i) i).mountains := by
    rw [processInput, (crashStage_frame _).2.2.2.2.2.2.1]
    exact (buttonStages_lanes _ i).2.2.2.1
  have hc : (processInput s i).clouds = (resetStage (pollCursor s i) i).clouds := by
    rw [processInput, (crashStage_frame _).2.2.2.2.2.2.2.1]
    exact (buttonStages_lanes _ i).2.2.2.2.1
  rw [hm, hc, resetStage_fires s i hk h]
  constructor
  · show (s.mountains ++ [_, _]).length = _
    simp
  · rfl

/-- Claim C10, which the code does not meet: the reset clears the two lanes before it
calls `initShapes`, but not the mountain and cloud vectors, onto which `initShapes`
pushes again.  After construction there are 2 mountains and 3 clouds; after one reset of
the crashed session there are 4 mountains and 6 clouds (the three clouds twice), while
each lane again holds 3 obstacles. -/
theorem reset_accumulates_decorations :
    freshSession.mountains.length = 2 ∧ freshSession.clouds.length = 3 ∧
    Reachable crashedSession ∧ crashedSession.screen = state.over ∧
    (processInput crashedSession resetOnly).screen = state.start ∧
    (processInput crashedSession resetOnly).mountains.length = 4 ∧
    (processInput crashedSession resetOnly).clouds =
      [⟨⟨200, 500⟩⟩, ⟨⟨400, 520⟩⟩, ⟨⟨325, 480⟩⟩, ⟨⟨200, 500⟩⟩, ⟨⟨400, 520⟩⟩, ⟨⟨325, 480⟩⟩] ∧
    (processInput crashedSession resetOnly).buildings1.length = 3 ∧
    (processInput crashedSession resetOnly).buildings2.length = 3 ∧
    (processInput crashedSession resetOnly).mountains ≠ freshSession.mountains ∧
    (processInput crashedSession resetOnly).clouds ≠ freshSession.clouds := by
  refine ⟨by decide!, by decide!, ?_, by decide!, by decide!, by decide!, by decide!,
    by decide!, by decide!, by decide!, by decide!⟩
  exact Reachable.processInput pressAtPillar (Reachable.processInput releaseEasy
    (Reachable.processInput pressEasy (Reachable.construct sevens)))

/-! ## C11: persistence of the difficulty -/

/-- The speed after `processInput` is the speed the button stages leave. -/
theorem processInput_moveSpeed (s : Engine) (i : Input) :
    (processInput s i).moveSpeed =
      (buttonStages (resetStage (pollCursor s i) i) i).moveSpeed := by
  rw [processInput, (crashStage_frame _).2.2.1]
  rfl

/-- The reset stage leaves speed and mouse flag alone, whether it fires or not. -/
theorem resetStage_keeps (s : Engine) (i : Input) :
    (resetStage (pollCursor s i) i).moveSpeed = s.moveSpeed ∧
    (resetStage (pollCursor s i) i).mousePressedLastFrame = s.mousePressedLastFrame := by
  by_cases h : i.keyR = true ∧ s.screen = state.over
  · rw [resetStage_fires s i h.1 h.2]
    exact ⟨rfl, rfl⟩
  · rw [resetStage_idle s i h]
    exact ⟨rfl, rfl⟩

/-- The screen after the reset stage is `start` only if the call began in `start` or the
reset fired. -/
theorem resetStage_screen_start (s : Engine) (i : Input)
    (h : (resetStage (pollCursor s i) i).screen = state.start) :
    s.screen = state.start ∨ (i.keyR = true ∧ s.screen = state.over) := by
  by_cases hf : i.keyR = true ∧ s.screen = state.over
  · exact Or.inr hf
  · rw [resetStage_idle s i hf] at h
    exact Or.inl h

/-- When the button stages find the start screen, a release and a hovered button, one of
the three selections fires. -/
theorem some_selection_fires (s : Engine) (i : Input)
    (h : (resetStage (pollCursor s i) i).screen = state.start ∧
      (resetStage (pollCursor s i) i).mousePressedLastFrame = true ∧ i.mouseLeft = false ∧
      hovered (resetStage (pollCursor s i) i) = true) :
    easyFires s i = true ∨ mediumFires s i = true ∨ hardFires s i = true := by
  obtain ⟨h1, h2, h3, h4⟩ := h
  obtain ⟨e1, e2, e3, e4, e5⟩ := easyStage_fields (moveUser (resetStage (pollCursor s i) i)) i
  obtain ⟨m1, m2, m3, m4⟩ :=
    mediumStage_fields (easyStage (moveUser (resetStage (pollCursor s i) i)) i) i
  have hsc : (moveUser (resetStage (pollCursor s i) i)).screen = state.start := h1
  have hl : (moveUser (resetStage (pollCursor s i) i)).mousePressedLastFrame = true := h2
  have he : (moveUser (resetStage (pollCursor s i) i)).easyButton =
      (resetStage (pollCursor s i) i).easyButton := rfl
  have hm : (moveUser (resetStage (pollCursor s i) i)).mediumButton =
      (resetStage (pollCursor s i) i).mediumButton := rfl
  have hh : (moveUser (resetStage (pollCursor s i) i)).hardButton =
      (resetStage (pollCursor s i) i).hardButton := rfl
  simp only [easyFires, mediumFires, hardFires]
  simp only [selectionFires, m1, m2, m3, m4, e1, e2, e3, e4, e5, hsc, hl, he, hm, hh, h3]
  simp only [hovered, Bool.or_eq_true] at h4
  rcases Bool.eq_false_or_eq_true ((resetStage (pollCursor s i) i).easyButton.isOverlapping
      (moveUser (resetStage (pollCursor s i) i)).user) with oe | oe <;>
    rcases Bool.eq_false_or_eq_true ((resetStage (pollCursor s i) i).mediumButton.isOverlapping
      (moveUser (resetStage (pollCursor s i) i)).user) with om | om <;>
    rcases Bool.eq_false_or_eq_true ((resetStage (pollCursor s i) i).hardButton.isOverlapping
      (moveUser (resetStage (pollCursor s i) i)).user) with oh | oh <;>
    simp_all

/-- Claim C11 as stated fails: a `processInput` call that begins in `over` can change
`moveSpeed`.  The reachable session `crashedSession` is on the over screen with speed 2
and the left button down on its last frame; with the reset key down and the button
released over the medium button the reset fires, the selection fires in the same call,
and the speed is 5 afterwards. -/
theorem reset_with_release_click_changes_speed :
    Reachable crashedSession ∧ crashedSession.screen = state.over ∧
    resetAndReleaseMedium.keyR = true ∧ crashedSession.moveSpeed = 2 ∧
    (processInput crashedSession resetAndReleaseMedium).moveSpeed = 5 ∧
    ¬ (∀ (s : Engine) (i : Input), Reachable s → s.screen = state.over →
        (processInput s i).moveSpeed = s.moveSpeed) := by
  have hr : Reachable crashedSession :=
    Reachable.processInput pressAtPillar (Reachable.processInput releaseEasy
      (Reachable.processInput pressEasy (Reachable.construct sevens)))
  have h1 : crashedSession.screen = state.over := by decide!
  have h2 : crashedSession.moveSpeed = 2 := by decide!
  have h3 : (processInput crashedSession resetAndReleaseMedium).moveSpeed = 5 := by decide!
  refine ⟨hr, h1, rfl, h2, h3, fun hall => ?_⟩
  have := hall crashedSession resetAndReleaseMedium hr h1
  rw [h2, h3] at this
  revert this
  norm_num

/-! ## The lane loops of `update`, obstacle by obstacle -/

/-- After a firing reset the hover test of the button stages is the test on the fresh
shapes. -/
theorem hovered_after_reset (s : Engine) (i : Input) (ho : s.screen = state.over)
    (hk : i.keyR = true) :
    hovered (resetStage (pollCursor s i) i) = overFreshButton i ∧
    (resetStage (pollCursor s i) i).easyButton.isOverlapping
        (moveUser (resetStage (pollCursor s i) i)).user =
      (construct i.rand).easyButton.isOverlapping (playerAt (construct i.rand) i) ∧
    (resetStage (pollCursor s i) i).mediumButton.isOverlapping
        (moveUser (resetStage (pollCursor s i) i)).user =
      (construct i.rand).mediumButton.isOverlapping (playerAt (construct i.rand) i) := by
  rw [resetStage_fires s i hk ho]
  exact ⟨rfl, rfl, rfl⟩

/-- The pointer positions over a fresh button, in coordinates: the player centre
`(cursorX, 600 - cursorY)` is less than 55 from a button centre in x and less than 30
from it in y. -/
theorem overFreshButton_iff (i : Input) :
    overFreshButton i = true ↔
      (270 < 600 - i.cursorY ∧ 600 - i.cursorY < 330) ∧
      ((211 < i.cursorX ∧ i.cursorX < 321) ∨ (345 < i.cursorX ∧ i.cursorX < 455) ∨
        (1435 / 3 < i.cursorX ∧ i.cursorX < 1765 / 3)) := by
  obtain ⟨hu, he, hm, hh⟩ := initShapes_shapes blank i.rand
  have hp : playerAt (initShapes blank i.rand) i =
      ⟨⟨i.cursorX, 600 - i.cursorY⟩, ⟨10, 10⟩, white⟩ := by
    simp only [playerAt, hu, Rect.setPosX, Rect.setPosY, height]
    norm_num
  simp only [overFreshButton, construct]
  simp only [hp, Rect.isOverlapping, Rect.getLeft, Rect.getRight,
    Rect.getTop, Rect.getBottom, he.1, he.2, hm.1, hm.2, hh.1, hh.2, Bool.or_eq_true,
    Bool.and_eq_true, decide_eq_true_eq]
  constructor
  · rintro ((⟨⟨⟨a, b⟩, c⟩, d⟩ | ⟨⟨⟨a, b⟩, c⟩, d⟩) | ⟨⟨⟨a, b⟩, c⟩, d⟩)
    · exact ⟨⟨by linarith, by linarith⟩, Or.inl ⟨by linarith, by linarith⟩⟩
    · exact ⟨⟨by linarith, by linarith⟩, Or.inr (Or.inl ⟨by linarith, by linarith⟩)⟩
    · exact ⟨⟨by linarith, by linarith⟩, Or.inr (Or.inr ⟨by linarith, by linarith⟩)⟩
  · rintro ⟨⟨c, d⟩, (⟨a, b⟩ | ⟨a, b⟩ | ⟨a, b⟩)⟩
    · exact Or.inl (Or.inl ⟨⟨⟨by linarith, by linarith⟩, by linarith⟩, by linarith⟩)
    · exact Or.inl (Or.inr ⟨⟨⟨by linarith, by linarith⟩, by linarith⟩, by linarith⟩)
    · exact Or.inr ⟨⟨⟨by linarith, by linarith⟩, by linarith⟩, by linarith⟩

/-- The lanes after the stages that follow the reset, on a well-formed start screen: left
alone if no selection fires, painted gray (nothing else) if one does. -/
theorem afterReset_lanes_cases (r : Engine) (i : Input) (hw : WellFormed r)
    (hs : r.screen = state.start) :
    (¬ (r.mousePressedLastFrame = true ∧ i.mouseLeft = false ∧ hovered r = true) →
      (crashStage (clampUser (buttonStages r i))).buildings1 = r.buildings1 ∧
      (crashStage (clampUser (buttonStages r i))).buildings2 = r.buildings2) ∧
    ((r.mousePressedLastFrame = true ∧ i.mouseLeft = false ∧ hovered r = true) →
      (crashStage (clampUser (buttonStages r i))).buildings1 =
        r.buildings1.map (fun b => b.setColor gray) ∧
      (crashStage (clampUser (buttonStages r i))).buildings2 =
        r.buildings2.map (fun b => b.setColor gray)) := by
  constructor
  · intro hf
    have hst : (clampUser (buttonStages r i)).screen = state.start := by
      show (buttonStages r i).screen = state.start
      rw [buttonStages_screen, if_neg (fun h => hf h.2), hs]
    rw [crashStage_of_ne_play _ (by rw [hst]; decide)]
    exact ⟨(buttonStages_lanes r i).1, (buttonStages_lanes r i).2.1⟩
  · intro hf
    obtain ⟨i1, i2, i3, i4⟩ := hovered_inside r hw hf.2.2
    have hcl : clampUser (buttonStages r i) = buttonStages r i :=
      clampUser_of_inside _ (by rw [buttonStages_user]; exact i1)
        (by rw [buttonStages_user]; exact i2) (by rw [buttonStages_user]; exact i3)
        (by rw [buttonStages_user]; exact i4)
    have hplay : (buttonStages r i).screen = state.play := by
      rw [buttonStages_screen, if_pos ⟨hs, hf⟩]
    constructor
    · rw [hcl]
      simp only [crashStage, hplay, if_true, buttonStages_user, (buttonStages_lanes r i).1]
      rw [crashLane_of_none _ _ _ (fun b hb => no_overlap_of_hovered r hw hs hf.2.2 b (Or.inl hb))]
    · rw [hcl]
      simp only [crashStage, hplay, if_true, buttonStages_user, (buttonStages_lanes r i).2.1]
      rw [crashLane_of_none _ _ _ (fun b hb => no_overlap_of_hovered r hw hs hf.2.2 b (Or.inr hb))]

/-- Claim C4 as stated fails when a difficulty selection fires in the call of the reset.
The session `crashedSession` is reachable and on the over screen; with the reset key down
and the left button released over the easy button the lanes are rebuilt, the selection
fires, and the crash check of the same call paints the new obstacles gray: the lanes are
not the freshly built level, whose obstacles are red. -/
theorem reset_with_click_paints_level :
    Reachable crashedSession ∧ crashedSession.screen = state.over ∧
    resetAndReleaseEasy.keyR = true ∧
    (processInput crashedSession resetAndReleaseEasy).buildings1.map (fun b => b.fill) =
      [gray, gray, gray] ∧
    (buildLoop resetAndReleaseEasy.rand 0 0 [] []).1.map (fun b => b.fill) =
      [brickRed, brickRed, brickRed] ∧
    (processInput crashedSession resetAndReleaseEasy).buildings1 ≠
      (buildLoop resetAndReleaseEasy.rand 0 0 [] []).1 ∧
    ¬ (∀ (s : Engine) (i : Input), s.screen = state.over → i.keyR = true →
        (processInput s i).buildings1 = (buildLoop i.rand 0 0 [] []).1 ∧
        (processInput s i).buildings2 = (buildLoop i.rand 0 0 [] []).2) := by
  have hr : Reachable crashedSession :=
    Reachable.processInput pressAtPillar (Reachable.processInput releaseEasy
      (Reachable.processInput pressEasy (Reachable.construct sevens)))
  have h1 : crashedSession.screen = state.over := by decide!
  have h2 : (processInput crashedSession resetAndReleaseEasy).buildings1 ≠
      (buildLoop resetAndReleaseEasy.rand 0 0 [] []).1 := by decide!
  refine ⟨hr, h1, rfl, by decide!, by decide!, h2, fun hall => ?_⟩
  exact h2 (hall crashedSession resetAndReleaseEasy h1 rfl).1

/-- Claim C4, amended. For every session on the over screen, whatever its score and lanes,
a `processInput` call with the reset key down sets the score to 0 and leaves in each lane
the freshly built level (the level loop run on empty lanes with the random values of this
call): exactly so, with the screen on `start`, unless a release-click over a button comes
with the reset; then the selection fires in the same call, the screen is `play` and the
fresh obstacles are painted gray, nothing else.  In both cases positions and sizes are
those of the fresh level, each lane holds exactly 3 obstacles (at least 800/(25+300)),
index-paired, with centre x 812.5, 1137.5 and 1462.5.  The level loop is a total
function: for every random source it stops after three rounds. -/
theorem reset_rebuilds_level (s : Engine) (i : Input) (ho : s.screen = state.over)
    (hk : i.keyR = true) :
    (processInput s i).score = 0 ∧
    (¬ freshClick s i →
      (processInput s i).screen = state.start ∧
      (processInput s i).buildings1 = (buildLoop i.rand 0 0 [] []).1 ∧
      (processInput s i).buildings2 = (buildLoop i.rand 0 0 [] []).2) ∧
    (freshClick s i →
      (processInput s i).screen = state.play ∧
      (processInput s i).buildings1 =
        (buildLoop i.rand 0 0 [] []).1.map (fun b => b.setColor gray) ∧
      (processInput s i).buildings2 =
        (buildLoop i.rand 0 0 [] []).2.map (fun b => b.setColor gray)) ∧
    (processInput s i).buildings1.map (fun b => (b.pos, b.size)) =
      (buildLoop i.rand 0 0 [] []).1.map (fun b => (b.pos, b.size)) ∧
    (processInput s i).buildings2.map (fun b => (b.pos, b.size)) =
      (buildLoop i.rand 0 0 [] []).2.map (fun b => (b.pos, b.size)) ∧
    (processInput s i).buildings1.length = 3 ∧ (processInput s i).buildings2.length = 3 ∧
    width / (25 + 300) ≤ 3 ∧
    (processInput s i).buildings1.map (fun b => b.pos.x) = [1625 / 2, 2275 / 2, 2925 / 2] ∧
    (processInput s i).buildings2.map (fun b => b.pos.x) = [1625 / 2, 2275 / 2, 2925 / 2] ∧
    (∀ rand : Nat → Nat, buildLoop rand 0 0 [] [] =
      ([nearPillar (rand 0) 0, nearPillar (rand 1) 325, nearPillar (rand 2) 650],
       [farPillar (rand 0) 0, farPillar (rand 1) 325, farPillar (rand 2) 650])) := by
  have hfire := resetStage_fires s i hk ho
  have hw : WellFormed (resetStage (pollCursor s i) i) := by
    rw [hfire]
    exact wellFormed_fresh _ i.rand rfl rfl
  have hs : (resetStage (pollCursor s i) i).screen = state.start := by rw [hfire]
  have hsc : (resetStage (pollCursor s i) i).score = 0 := by rw [hfire]; rfl
  have hl : (resetStage (pollCursor s i) i).mousePressedLastFrame = s.mousePressedLastFrame :=
    (resetStage_keeps s i).2
  have hb1 : (resetStage (pollCursor s i) i).buildings1 = (buildLoop i.rand 0 0 [] []).1 := by
    rw [hfire]; rfl
  have hb2 : (resetStage (pollCursor s i) i).buildings2 = (buildLoop i.rand 0 0 [] []).2 := by
    rw [hfire]; rfl
  have hhov := (hovered_after_reset s i ho hk).1
  have hcond : ((resetStage (pollCursor s i) i).mousePressedLastFrame = true ∧
      i.mouseLeft = false ∧ hovered (resetStage (pollCursor s i) i) = true) ↔
      freshClick s i := by
    rw [hl, hhov]
    rfl
  have hloop : ∀ rand : Nat → Nat, buildLoop rand 0 0 [] [] =
      ([nearPillar (rand 0) 0, nearPillar (rand 1) 325, nearPillar (rand 2) 650],
       [farPillar (rand 0) 0, farPillar (rand 1) 325, farPillar (rand 2) 650]) := by
    intro rand
    rw [buildLoop_zero]
    rfl
  have hscore : (processInput s i).score = 0 := by
    rw [processInput, (afterReset_start _ i hw hs).2.2, hsc]
  have hscreen := (afterReset_start _ i hw hs).1
  obtain ⟨c1, c2⟩ := afterReset_lanes_cases _ i hw hs
  rw [hb1, hb2] at c1 c2
  have hidle : ¬ freshClick s i →
      (processInput s i).screen = state.start ∧
      (processInput s i).buildings1 = (buildLoop i.rand 0 0 [] []).1 ∧
      (processInput s i).buildings2 = (buildLoop i.rand 0 0 [] []).2 := by
    intro hn
    have hn2 := fun h => hn (hcond.1 h)
    refine ⟨?_, c1 hn2⟩
    rw [processInput, hscreen, if_neg hn2]
  have hclick : freshClick s i →
      (processInput s i).screen = state.play ∧
      (processInput s i).buildings1 =
        (buildLoop i.rand 0 0 [] []).1.map (fun b => b.setColor gray) ∧
      (processInput s i).buildings2 =
        (buildLoop i.rand 0 0 [] []).2.map (fun b => b.setColor gray) := by
    intro hc
    refine ⟨?_, c2 (hcond.2 hc)⟩
    rw [processInput, hscreen, if_pos (hcond.2 hc)]
  have hgeo : (processInput s i).buildings1.map (fun b => (b.pos, b.size)) =
        (buildLoop i.rand 0 0 [] []).1.map (fun b => (b.pos, b.size)) ∧
      (processInput s i).buildings2.map (fun b => (b.pos, b.size)) =
        (buildLoop i.rand 0 0 [] []).2.map (fun b => (b.pos, b.size)) := by
    by_cases hc : freshClick s i
    · rw [(hclick hc).2.1, (hclick hc).2.2, List.map_map, List.map_map]
      exact ⟨rfl, rfl⟩
    · rw [(hidle hc).2.1, (hidle hc).2.2]
      exact ⟨rfl, rfl⟩
  have hx1 : (processInput s i).buildings1.map (fun b => b.pos.x) =
      [1625 / 2, 2275 / 2, 2925 / 2] := by
    have h : (processInput s i).buildings1.map (fun b => b.pos.x) =
        ((processInput s i).buildings1.map (fun b => (b.pos, b.size))).map
          (fun p => p.1.x) := by
      rw [List.map_map]
      rfl
    rw [h, hgeo.1, hloop]
    simp only [List.map, nearPillar]
    norm_num
  have hx2 : (processInput s i).buildings2.map (fun b => b.pos.x) =
      [1625 / 2, 2275 / 2, 2925 / 2] := by
    have h : (processInput s i).buildings2.map (fun b => b.pos.x) =
        ((processInput s i).buildings2.map (fun b => (b.pos, b.size))).map
          (fun p => p.1.x) := by
      rw [List.map_map]
      rfl
    rw [h, hgeo.2, hloop]
    simp only [List.map, farPillar]
    norm_num
  refine ⟨hscore, hidle, hclick, hgeo.1, hgeo.2, ?_, ?_, by decide, hx1, hx2, hloop⟩
  · have := congrArg List.length hx1
    simpa using this
  · have := congrArg List.length hx2
    simpa using this

/-- Claim C4, amended, at a concrete run: `lostSession` is over with score 1 and lanes at
963.5, 311.5 and 636.5; the reset, with random values 60, 160, 260, sets the score to 0
and leaves exactly the fresh level with heights 100, 200, 300 at 812.5, 1137.5, 1462.5. -/
theorem reset_rebuilds_level_witness :
    lostSession.screen = state.over ∧ resetWithNewLevel.keyR = true ∧
    lostSession.score = 1 ∧
    lostSession.buildings1.map (fun b => b.pos.x) = [1927 / 2, 623 / 2, 1273 / 2] ∧
    (processInput lostSession resetWithNewLevel).score = 0 ∧
    (processInput lostSession resetWithNewLevel).screen = state.start ∧
    (processInput lostSession resetWithNewLevel).buildings1 =
      (buildLoop resetWithNewLevel.rand 0 0 [] []).1 ∧
    (processInput lostSession resetWithNewLevel).buildings1.map (fun b => b.pos.x) =
      [1625 / 2, 2275 / 2, 2925 / 2] ∧
    (processInput lostSession resetWithNewLevel).buildings1.map (fun b => b.size.y) =
      [100, 200, 300] := by
  have ho : lostSession.screen = state.over := by decide!
  have hn : ¬ freshClick lostSession resetWithNewLevel := by
    intro h
    have := (overFreshButton_iff resetWithNewLevel).1 h.2.2
    simp only [resetWithNewLevel] at this
    norm_num at this
  have hmain := reset_rebuilds_level lostSession resetWithNewLevel ho rfl
  refine ⟨ho, rfl, by decide!, by decide!, hmain.1, (hmain.2.1 hn).1, (hmain.2.1 hn).2.1,
    hmain.2.2.2.2.2.2.2.2.1, ?_⟩
  rw [(hmain.2.1 hn).2.1]
  decide!

/-! ## C9: the transitions of the screen, amended -/

/-- The screen after `processInput` when the call starts in `over` with the reset key
down: `play` on a release-click over a fresh button, `start` otherwise. -/
theorem processInput_from_over_click (s : Engine) (i : Input) (h : s.screen = state.over)
    (hk : i.keyR = true) :
    (freshClick s i → (processInput s i).screen = state.play) ∧
    (¬ freshClick s i → (processInput s i).screen = state.start) := by
  have hscr := processInput_from_over_reset s i h hk
  rw [(hovered_after_reset s i h hk).1] at hscr
  constructor
  · intro hc
    have hc2 : s.mousePressedLastFrame = true ∧ i.mouseLeft = false ∧
        overFreshButton i = true := hc
    rw [hscr, if_pos hc2]
  · intro hc
    have hc2 : ¬ (s.mousePressedLastFrame = true ∧ i.mouseLeft = false ∧
        overFreshButton i = true) := hc
    rw [hscr, if_neg hc2]

/-- The screen after `processInput` when a reachable session starts the call in `start`:
`play` on a release-click over a button, `start` otherwise. -/
theorem processInput_from_start_click (s : Engine) (i : Input) (hr : Reachable s)
    (h : s.screen = state.start) :
    (releaseClick s i → (processInput s i).screen = state.play) ∧
    (¬ releaseClick s i → (processInput s i).screen = state.start) := by
  have hw : WellFormed (pollCursor s i) := wellFormed_of_reachable s hr
  have hreset : resetStage (pollCursor s i) i = pollCursor s i :=
    resetStage_of_ne_over s i (by simp [h])
  have hl : (pollCursor s i).mousePressedLastFrame = s.mousePressedLastFrame := rfl
  have hcond : ((pollCursor s i).mousePressedLastFrame = true ∧ i.mouseLeft = false ∧
      hovered (pollCursor s i) = true) ↔ releaseClick s i := by
    rw [hl, hovered_pollCursor]
    rfl
  have hscr := (afterReset_start (pollCursor s i) i hw h).1
  constructor
  · intro hc
    rw [processInput, hreset, hscr, if_pos (hcond.2 hc)]
  · intro hc
    rw [processInput, hreset, hscr, if_neg (fun h' => hc (hcond.1 h'))]

/-- Claim C9, amended. The constructed session is on the start screen.  For every
reachable session and every input one `processInput` call leaves the screen unchanged or
changes it along start to play, play to over, over to start, or over to play.  From
`start` the screen becomes `play` exactly on a release-click over a button and stays
`start` otherwise; from `play` it stays `play` or becomes `over`; from `over` it stays
`over` exactly when the reset key is up, becomes `play` exactly when the reset key is down
in the same frame as a release-click over a button (the reset runs first and the
selection fires in the same call), and becomes `start` exactly when the reset key is down
without such a release-click.  A call never takes start to over.  `update` never changes
the screen. -/
theorem screen_transitions (s : Engine) (i : Input) (hr : Reachable s) :
    (∀ rand : Nat → Nat, (construct rand).screen = state.start) ∧
    ((processInput s i).screen = s.screen ∨
      (s.screen = state.start ∧ (processInput s i).screen = state.play) ∨
      (s.screen = state.play ∧ (processInput s i).screen = state.over) ∨
      (s.screen = state.over ∧ (processInput s i).screen = state.start) ∨
      (s.screen = state.over ∧ (processInput s i).screen = state.play ∧ i.keyR = true ∧
        freshClick s i)) ∧
    (s.screen = state.start →
      ((processInput s i).screen = state.play ↔ releaseClick s i) ∧
      ((processInput s i).screen = state.start ↔ ¬ releaseClick s i)) ∧
    (s.screen = state.play →
      (processInput s i).screen = state.play ∨ (processInput s i).screen = state.over) ∧
    (s.screen = state.over →
      ((processInput s i).screen = state.play ↔ (i.keyR = true ∧ freshClick s i)) ∧
      ((processInput s i).screen = state.start ↔ (i.keyR = true ∧ ¬ freshClick s i)) ∧
      ((processInput s i).screen = state.over ↔ i.keyR = false)) ∧
    ¬ (s.screen = state.start ∧ (processInput s i).screen = state.over) ∧
    (∀ f : Cloud → ℚ → ℚ → Cloud, (update f s).screen = s.screen) := by
  have hupd : ∀ f : Cloud → ℚ → ℚ → Cloud, (update f s).screen = s.screen := by
    intro f
    unfold update
    split_ifs <;> rfl
  have hstart : s.screen = state.start →
      ((processInput s i).screen = state.play ↔ releaseClick s i) ∧
      ((processInput s i).screen = state.start ↔ ¬ releaseClick s i) := by
    intro hsc
    obtain ⟨p1, p2⟩ := processInput_from_start_click s i hr hsc
    constructor
    · constructor
      · intro hp
        by_contra hc
        rw [p2 hc] at hp
        exact absurd hp (by decide)
      · exact p1
    · constructor
      · intro hp hc
        rw [p1 hc] at hp
        exact absurd hp (by decide)
      · exact p2
  have hover : s.screen = state.over →
      ((processInput s i).screen = state.play ↔ (i.keyR = true ∧ freshClick s i)) ∧
      ((processInput s i).screen = state.start ↔ (i.keyR = true ∧ ¬ freshClick s i)) ∧
      ((processInput s i).screen = state.over ↔ i.keyR = false) := by
    intro hsc
    rcases Bool.eq_false_or_eq_true i.keyR with hk | hk
    · obtain ⟨p1, p2⟩ := processInput_from_over_click s i hsc hk
      by_cases hc : freshClick s i
      · rw [p1 hc, hk]
        simp [hc]
      · rw [p2 hc, hk]
        simp [hc]
    · rw [processInput_from_over_idle s i hsc hk, hk]
      simp
  refine ⟨fun _ => rfl, ?_, hstart, processInput_from_play s i, hover, ?_, hupd⟩
  · rcases hsc : s.screen with _ | _ | _
    · rcases processInput_from_start s i hr hsc with h | h
      · exact Or.inl h
      · exact Or.inr (Or.inl ⟨rfl, h⟩)
    · rcases processInput_from_play s i hsc with h | h
      · exact Or.inl h
      · exact Or.inr (Or.inr (Or.inl ⟨rfl, h⟩))
    · rcases Bool.eq_false_or_eq_true i.keyR with hk | hk
      · obtain ⟨p1, p2⟩ := processInput_from_over_click s i hsc hk
        by_cases hc : freshClick s i
        · exact Or.inr (Or.inr (Or.inr (Or.inr ⟨rfl, p1 hc, hk, hc⟩)))
        · exact Or.inr (Or.inr (Or.inr (Or.inl ⟨rfl, p2 hc⟩)))
      · exact Or.inl (processInput_from_over_idle s i hsc hk)
  · rintro ⟨hsc, hov⟩
    rcases processInput_from_start s i hr hsc with h | h <;> rw [h] at hov <;>
      exact absurd hov (by decide)

/-- Claim C9, amended, at a concrete run: in the crashed session, with the reset key down,
a release of the button over the easy button gives `play`, a release in the corner of the
window gives `start`. -/
theorem screen_transitions_witness :
    Reachable crashedSession ∧ crashedSession.screen = state.over ∧
    freshClick crashedSession resetAndReleaseEasy ∧
    (processInput crashedSession resetAndReleaseEasy).screen = state.play ∧
    ¬ freshClick crashedSession resetOnly ∧
    (processInput crashedSession resetOnly).screen = state.start := by
  have hr : Reachable crashedSession :=
    Reachable.processInput pressAtPillar (Reachable.processInput releaseEasy
      (Reachable.processInput pressEasy (Reachable.construct sevens)))
  have ho : crashedSession.screen = state.over := by decide!
  have hc : freshClick crashedSession resetAndReleaseEasy :=
    ⟨by decide!, rfl, by decide!⟩
  have hn : ¬ freshClick crashedSession resetOnly := by
    intro h
    have := (overFreshButton_iff resetOnly).1 h.2.2
    simp only [resetOnly] at this
    norm_num at this
  exact ⟨hr, ho, hc,
    ((screen_transitions crashedSession resetAndReleaseEasy hr).2.2.2.2.1 ho).1.2 ⟨rfl, hc⟩,
    hn,
    ((screen_transitions crashedSession resetOnly hr).2.2.2.2.1 ho).2.1.2 ⟨rfl, hn⟩⟩

/-! ## C11: persistence of the difficulty, amended -/

/-- The speed after `processInput` when the call starts in `over` with the reset key
down: the speed of the first fresh button under the pointer on a release-click, the old
speed otherwise. -/
theorem processInput_speed_over_reset (s : Engine) (i : Input) (h : s.screen = state.over)
    (hk : i.keyR = true) :
    (freshClick s i → (processInput s i).moveSpeed = freshSpeed i) ∧
    (¬ freshClick s i → (processInput s i).moveSpeed = s.moveSpeed) := by
  obtain ⟨k1, k2⟩ := resetStage_keeps s i
  obtain ⟨v1, v2, v3⟩ := hovered_after_reset s i h hk
  have hs : (resetStage (pollCursor s i) i).screen = state.start := by
    rw [resetStage_fires s i hk h]
  have hsp := buttonStages_moveSpeed (resetStage (pollCursor s i) i) i
  rw [v1, v2, v3, k1, k2] at hsp
  constructor
  · intro hc
    have hc2 : (resetStage (pollCursor s i) i).screen = state.start ∧
        s.mousePressedLastFrame = true ∧ i.mouseLeft = false ∧ overFreshButton i = true :=
      ⟨hs, hc⟩
    rw [processInput_moveSpeed, hsp, if_pos hc2]
    rfl
  · intro hc
    have hc2 : ¬ ((resetStage (pollCursor s i) i).screen = state.start ∧
        s.mousePressedLastFrame = true ∧ i.mouseLeft = false ∧ overFreshButton i = true) :=
      fun h' => hc h'.2
    rw [processInput_moveSpeed, hsp, if_neg hc2]

/-- The speed after `processInput` when no reset fires and the call does not start in
`start`: the old speed. -/
theorem processInput_speed_idle (s : Engine) (i : Input) (hns : s.screen ≠ state.start)
    (hnr : ¬ (i.keyR = true ∧ s.screen = state.over)) :
    (processInput s i).moveSpeed = s.moveSpeed := by
  have hsp := buttonStages_moveSpeed (resetStage (pollCursor s i) i) i
  have hscr : (resetStage (pollCursor s i) i).screen ≠ state.start := by
    rw [resetStage_idle s i hnr]
    exact hns
  rw [processInput_moveSpeed, hsp, if_neg (fun h => hscr h.1)]
  exact (resetStage_keeps s i).1

/-- Claim C11, amended. `moveSpeed` is modified only by a difficulty selection firing, and
a selection fires only while the screen is `start` at that point of the call (the call
began in `start`, or in `over` with the reset firing first).  Every `update` call and
every `processInput` call that begins in `play` leave `moveSpeed` as it was.  A
`processInput` call that begins in `over` leaves it as it was unless the reset key is down
in the same frame as a release-click over a button (left button down on the previous
frame, up on this one, pointer over one of the buttons): then the reset runs first, the
selection fires in the same call, the screen ends as `play` and `moveSpeed` becomes the
value of the first button under the pointer, 2, 5 or 10. -/
theorem moveSpeed_persistence (s : Engine) (i : Input) :
    (∀ f : Cloud → ℚ → ℚ → Cloud, (update f s).moveSpeed = s.moveSpeed) ∧
    (s.screen = state.play → (processInput s i).moveSpeed = s.moveSpeed) ∧
    (s.screen = state.over → ¬ (i.keyR = true ∧ freshClick s i) →
      (processInput s i).moveSpeed = s.moveSpeed) ∧
    (s.screen = state.over → i.keyR = true → freshClick s i →
      (processInput s i).screen = state.play ∧
      (processInput s i).moveSpeed = freshSpeed i ∧
      (freshSpeed i = 2 ∨ freshSpeed i = 5 ∨ freshSpeed i = 10) ∧
      (easyFires s i = true ∨ mediumFires s i = true ∨ hardFires s i = true)) ∧
    ((processInput s i).moveSpeed ≠ s.moveSpeed →
      (s.screen = state.start ∨ (i.keyR = true ∧ s.screen = state.over)) ∧
      (easyFires s i = true ∨ mediumFires s i = true ∨ hardFires s i = true)) := by
  obtain ⟨k1, k2⟩ := resetStage_keeps s i
  have hsp := buttonStages_moveSpeed (resetStage (pollCursor s i) i) i
  have hchange : (processInput s i).moveSpeed ≠ s.moveSpeed →
      (resetStage (pollCursor s i) i).screen = state.start ∧
      (resetStage (pollCursor s i) i).mousePressedLastFrame = true ∧ i.mouseLeft = false ∧
      hovered (resetStage (pollCursor s i) i) = true := by
    intro hne
    by_contra hc
    apply hne
    rw [processInput_moveSpeed, hsp, if_neg hc, k1]
  refine ⟨?_, ?_, ?_, ?_, ?_⟩
  · intro f
    unfold update
    split_ifs <;> rfl
  · intro hp
    exact processInput_speed_idle s i (by rw [hp]; decide) (by rw [hp]; simp)
  · intro ho hn
    by_cases hk : i.keyR = true
    · exact (processInput_speed_over_reset s i ho hk).2 (fun hc => hn ⟨hk, hc⟩)
    · exact processInput_speed_idle s i (by rw [ho]; decide) (fun h => hk h.1)
  · intro ho hk hc
    refine ⟨(processInput_from_over_click s i ho hk).1 hc,
      (processInput_speed_over_reset s i ho hk).1 hc, ?_, ?_⟩
    · unfold freshSpeed
      split_ifs
      · exact Or.inl rfl
      · exact Or.inr (Or.inl rfl)
      · exact Or.inr (Or.inr rfl)
    · have hs : (resetStage (pollCursor s i) i).screen = state.start := by
        rw [resetStage_fires s i hk ho]
      refine some_selection_fires s i ⟨hs, ?_, hc.2.1, ?_⟩
      · rw [k2]
        exact hc.1
      · rw [(hovered_after_reset s i ho hk).1]
        exact hc.2.2
  · intro hne
    obtain ⟨c1, c2, c3, c4⟩ := hchange hne
    exact ⟨resetStage_screen_start s i c1, some_selection_fires s i ⟨c1, c2, c3, c4⟩⟩

/-- Claim C11, amended, at a concrete run: in the crashed session (speed 2), with the
reset key down, a release of the button over the medium button gives `play` and speed 5,
while holding the button down over the easy button leaves the speed at 2. -/
theorem moveSpeed_persistence_witness :
    crashedSession.screen = state.over ∧ crashedSession.moveSpeed = 2 ∧
    freshClick crashedSession resetAndReleaseMedium ∧
    (processInput crashedSession resetAndReleaseMedium).screen = state.play ∧
    (processInput crashedSession resetAndReleaseMedium).moveSpeed = 5 ∧
    ¬ (resetHeld.keyR = true ∧ freshClick crashedSession resetHeld) ∧
    (processInput crashedSession resetHeld).moveSpeed = 2 := by
  have ho : crashedSession.screen = state.over := by decide!
  have h2 : crashedSession.moveSpeed = 2 := by decide!
  have hc : freshClick crashedSession resetAndReleaseMedium :=
    ⟨by decide!, rfl, by decide!⟩
  have hn : ¬ (resetHeld.keyR = true ∧ freshClick crashedSession resetHeld) :=
    fun h => absurd h.2.2.1 (by decide)
  have hpos := (moveSpeed_persistence crashedSession resetAndReleaseMedium).2.2.2.1 ho rfl hc
  have hfs : freshSpeed resetAndReleaseMedium = 5 := by decide!
  refine ⟨ho, h2, hc, hpos.1, ?_, hn, ?_⟩
  · rw [hpos.2.1, hfs]
  · rw [(moveSpeed_persistence crashedSession resetHeld).2.2.1 ho hn, h2]

/-! ## C5: scoring, amended -/

end PillarDodge
